import Mathlib

/-!
Shallow embedding of the core of `libmemalloc` (src/src/libmemalloc.c,
src/inc/libmemalloc.h, src/inc/memalloc_utils.h), specialised to an
LP64 target with `ARCH_ALIGNMENT = 8` (the default for x86_64/aarch64 in
memalloc_utils.h).

Addresses are naturals; pointer-valued C results are `Int` following the
source's `PTR_ERR` convention (a negative value is an encoded errno, `0`
is `NULL`, a positive value is an address).  Machine reads of raw heap
words default to zero, matching the zero-filled regions produced by
`MEM_growUserHeap` (which calls `MEM_memset(old, 0, inc)`).

The OS surface (`sbrk`, `mmap`, `munmap`, page size) is modelled by
oracle fields on the allocator state (`brk`, `sbrk_ok`, `mmap_ok`,
`munmap_ok`, `next_map_base`, `page_size`).
-/

namespace Libmemalloc

/-! ### Constants (src/src/libmemalloc.c lines 83-194, memalloc_utils.h) -/

def ARCH_ALIGNMENT : Nat := 8

def MAGIC_NUMBER : Nat := 0xBEEFDEADBEEFDEAD

def CANARY_VALUE : Nat := 0xDEADBEEFDEADBEEF

def BYTES_PER_CLASS : Nat := 128

def MMAP_THRESHOLD : Nat := 128 * 1024

def DEFAULT_NUM_BINS : Nat := 10

/-- The size of `block_header_t` on the LP64 target: magic (8) + size (8) +
free (4) + marked (4) + var_name (8) + file (8) + line (8) + canary (8) +
next (8) + prev (8) + fl_next (8) + fl_prev (8) = 88 bytes. -/
def sizeofBlockHeader : Nat := 88

/-- The word used for the trailing canary, `sizeof(uintptr_t)`. -/
def sizeofWord : Nat := 8

/-- MIN_BLOCK_SIZE = sizeof(block_header_t) + ARCH_ALIGNMENT (line 183). -/
def MIN_BLOCK_SIZE : Nat := sizeofBlockHeader + ARCH_ALIGNMENT

/-- The size of an `mmap_t` node: addr (8) + size (8) + next (8). -/
def sizeofMmapT : Nat := 24

/-- The size of `mem_arena_t`: num_bins (8) + bins (8) + top_chunk (8). -/
def sizeofMemArenaT : Nat := 24

/-- ALIGN(x) = (x + (ARCH_ALIGNMENT-1)) & ~(ARCH_ALIGNMENT-1); for the
power-of-two alignment 8 this equals rounding up to a multiple of 8. -/
def ALIGN (x : Nat) : Nat := (x + (ARCH_ALIGNMENT - 1)) / ARCH_ALIGNMENT * ARCH_ALIGNMENT

/-! ### Errno values (negated at use sites, as in the C sources) -/

def EXIT_SUCCESS : Int := 0

def ENOENT : Int := 2

def EIO : Int := 5

def ENOMEM : Int := 12

def EFAULT : Int := 14

def EINVAL : Int := 22

def ELOOP : Int := 40

def EPROTO : Int := 71

def EOVERFLOW : Int := 75

/-! ### Data model (src/inc/libmemalloc.h lines 313-506) -/

/-- allocation_strategy_t. -/
inductive Strategy where
  | FIRST_FIT
  | NEXT_FIT
  | BEST_FIT
deriving Repr, DecidableEq

/-- block_header_t; pointer fields are `Option Nat` addresses
(`none` = NULL). -/
structure BlockHeader where
  magic : Nat
  size : Nat
  free : Nat
  marked : Nat
  var_name : String
  file : String
  line : Nat
  canary : Nat
  next : Option Nat
  prev : Option Nat
  fl_next : Option Nat
  fl_prev : Option Nat
deriving Repr, DecidableEq

/-- The all-zero header read from zero-filled (or never written) memory. -/
def zeroHeader : BlockHeader :=
  { magic := 0, size := 0, free := 0, marked := 0, var_name := "", file := ""
  , line := 0, canary := 0, next := none, prev := none, fl_next := none
  , fl_prev := none }

/-- One node of the allocator's `mmap_list`.  `addr`/`size` are the fields
of `mmap_t`; `node` records the heap address (user pointer) at which the
`mmap_t` struct itself was allocated (needed by `MEM_mapFree`, which frees
that node through the heap path). -/
structure MmapEnt where
  addr : Nat
  size : Nat
  node : Nat
deriving Repr, DecidableEq

/-- Abstract memory: block headers indexed by address, raw canary words
indexed by address, plus event logs for `MEM_memset(_, 0, _)` and
`MEM_memcpy` (whose byte-level effect is below this abstraction). -/
structure Memory where
  hdrs : List (Nat × BlockHeader)
  words : List (Nat × Nat)
  zeroes : List (Nat × Nat)
  copies : List (Nat × Nat × Nat)
deriving Repr, DecidableEq

def emptyMemory : Memory := { hdrs := [], words := [], zeroes := [], copies := [] }

/-- Read the block header stored at `a` (zero-filled memory reads as the
all-zero header). -/
def Memory.readHdr (m : Memory) (a : Nat) : BlockHeader :=
  match m.hdrs.find? (fun p => p.1 == a) with
  | some p => p.2
  | none => zeroHeader

/-- Store a block header at `a`. -/
def Memory.writeHdr (m : Memory) (a : Nat) (h : BlockHeader) : Memory :=
  { m with hdrs := (a, h) :: m.hdrs.filter (fun p => p.1 != a) }

/-- Field update of the header at `a` (models `block->field = v`). -/
def Memory.updHdr (m : Memory) (a : Nat) (f : BlockHeader → BlockHeader) : Memory :=
  m.writeHdr a (f (m.readHdr a))

/-- Read the raw word at `a` (zero-filled memory reads as 0). -/
def Memory.readWord (m : Memory) (a : Nat) : Nat :=
  match m.words.find? (fun p => p.1 == a) with
  | some p => p.2
  | none => 0

/-- Store a raw word at `a` (models `*(uintptr_t *)a = v`). -/
def Memory.writeWord (m : Memory) (a : Nat) (v : Nat) : Memory :=
  { m with words := (a, v) :: m.words.filter (fun p => p.1 != a) }

/-- MEM_memset(start, 0, len): headers and words inside the range revert to
zero-filled memory; the event is logged. -/
def Memory.memsetZero (m : Memory) (start len : Nat) : Memory :=
  { hdrs := m.hdrs.filter (fun p => decide (p.1 < start) || decide (start + len ≤ p.1))
  , words := m.words.filter (fun p => decide (p.1 < start) || decide (start + len ≤ p.1))
  , zeroes := (start, len) :: m.zeroes
  , copies := m.copies }

/-- MEM_memcpy(dest, src, len): logged as an event (payload bytes are below
this abstraction; the function returns `dest` on success). -/
def Memory.memcpyEv (m : Memory) (dest src len : Nat) : Memory :=
  { m with copies := (dest, src, len) :: m.copies }

/-- mem_allocator_t together with the OS oracle (program break, and
success flags for `sbrk` / `mmap` / `munmap`).  `top_chunk` is the single
arena's `top_chunk` field. -/
structure MemAllocator where
  heap_start : Nat
  heap_end : Nat
  metadata_size : Nat
  num_size_classes : Nat
  free_lists : List (Option Nat)
  last_allocated : Option Nat
  top_chunk : Option Nat
  last_brk_start : Option Nat
  last_brk_end : Option Nat
  mmap_list : List MmapEnt
  mem : Memory
  brk : Nat
  sbrk_ok : Bool
  mmap_ok : Bool
  munmap_ok : Bool
  next_map_base : Nat
  page_size : Nat
deriving Repr, DecidableEq

/-! ### MEM_sbrk (libmemalloc.c lines 1100-1181) -/

/-- MEM_sbrk: returns the previous break and moves the break by `inc`;
on failure returns PTR_ERR(-ENOMEM).  The oracle `sbrk_ok` decides
whether the underlying `sbrk` calls succeed. -/
def MEM_sbrk (al : MemAllocator) (inc : Int) : Int × MemAllocator :=
  if al.sbrk_ok then
    (Int.ofNat al.brk, { al with brk := (Int.ofNat al.brk + inc).toNat })
  else
    (-ENOMEM, al)

/-! ### MEM_validateBlock (libmemalloc.c lines 1205-1448) -/

/-- Heap branch of MEM_validateBlock: the checks performed when
`in_heap` holds, in source order (lines 1275-1415). -/
def validateHeapPath (al : MemAllocator) (addr : Nat) : Int :=
  if addr % ARCH_ALIGNMENT ≠ 0 then -ENOENT
  else if addr < al.heap_start + al.metadata_size then -ENOENT
  else if al.heap_end - sizeofBlockHeader < addr then -ENOENT
  else
    let bsize := (al.mem.readHdr addr).size
    if bsize < sizeofBlockHeader + sizeofWord then -ENOENT
    else if bsize % ARCH_ALIGNMENT ≠ 0 then -ENOENT
    else if al.heap_end < addr + bsize then -ENOENT
    else if (al.mem.readHdr addr).magic ≠ MAGIC_NUMBER then -ENOENT
    else if (al.mem.readHdr addr).canary ≠ CANARY_VALUE then -EPROTO
    else if al.mem.readWord (addr + bsize - sizeofWord) ≠ CANARY_VALUE then -EOVERFLOW
    else EXIT_SUCCESS

/-- Mmap branch of MEM_validateBlock: the checks performed when the
address lies inside the map entry `m` (lines 1275-1439); note the header
canary is checked only on the heap branch in the source. -/
def validateMapPath (al : MemAllocator) (addr : Nat) (m : MmapEnt) : Int :=
  let map_end := m.addr + m.size
  if addr % ARCH_ALIGNMENT ≠ 0 then -ENOENT
  else if map_end - sizeofBlockHeader < addr then -ENOENT
  else
    let bsize := (al.mem.readHdr addr).size
    if bsize < sizeofBlockHeader + sizeofWord then -ENOENT
    else if bsize % ARCH_ALIGNMENT ≠ 0 then -ENOENT
    else if map_end < addr + bsize then -ENOENT
    else if (al.mem.readHdr addr).magic ≠ MAGIC_NUMBER then -ENOENT
    else if map_end ≤ addr + bsize - sizeofWord then -ENOENT
    else if al.mem.readWord (addr + bsize - sizeofWord) ≠ CANARY_VALUE then -EOVERFLOW
    else EXIT_SUCCESS

/-- The map-list membership scan of MEM_validateBlock (lines 1250-1261). -/
def mapLookup (al : MemAllocator) (addr : Nat) : Option MmapEnt :=
  al.mmap_list.find? (fun m => decide (m.addr ≤ addr) && decide (addr < m.addr + m.size))

/-- MEM_validateBlock. -/
def MEM_validateBlock (al : MemAllocator) (block : Option Nat) : Int :=
  match block with
  | none => -EINVAL
  | some addr =>
    if al.heap_start ≤ addr ∧ addr < al.heap_end then
      validateHeapPath al addr
    else
      match mapLookup al addr with
      | none => -EFAULT
      | some m => validateMapPath al addr m

/-! ### MEM_getSizeClass (lines 1467-1521) -/

/-- MEM_getSizeClass: ceil(size / BYTES_PER_CLASS) clamped to
num_size_classes - 1; -EINVAL on zero size. -/
def MEM_getSizeClass (al : MemAllocator) (size : Nat) : Int :=
  if size = 0 then -EINVAL
  else
    let index := (size + BYTES_PER_CLASS - 1) / BYTES_PER_CLASS
    if al.num_size_classes ≤ index then Int.ofNat (al.num_size_classes - 1)
    else Int.ofNat index

/-! ### Free-list insert / remove (lines 1540-1642) -/

/-- MEM_insertFreeBlock: push `block` at the head of the bin of its size
class, fixing `fl_prev`/`fl_next`. -/
def MEM_insertFreeBlock (al : MemAllocator) (block : Nat) : Int × MemAllocator :=
  let index := MEM_getSizeClass al (al.mem.readHdr block).size
  if index < 0 then (-ENOMEM, al)
  else
    let i := index.toNat
    let head := al.free_lists.getD i none
    let m1 := al.mem.updHdr block (fun h => { h with fl_next := head, fl_prev := none })
    let m2 :=
      match head with
      | some hAddr => m1.updHdr hAddr (fun h => { h with fl_prev := some block })
      | none => m1
    (EXIT_SUCCESS, { al with mem := m2, free_lists := al.free_lists.set i (some block) })

/-- MEM_removeFreeBlock: splice `block` out of the bin of its size class
(head or middle), then clear its own `fl` links. -/
def MEM_removeFreeBlock (al : MemAllocator) (block : Nat) : Int × MemAllocator :=
  let index := MEM_getSizeClass al (al.mem.readHdr block).size
  if index < 0 then (-ENOMEM, al)
  else
    let i := index.toNat
    let al1 :=
      match (al.mem.readHdr block).fl_prev with
      | some p =>
        { al with mem := (al.mem.updHdr p (fun h => { h with fl_next := (al.mem.readHdr block).fl_next })) }
      | none =>
        { al with free_lists := al.free_lists.set i (al.mem.readHdr block).fl_next }
    let al2 :=
      match (al1.mem.readHdr block).fl_next with
      | some n =>
        { al1 with mem := (al1.mem.updHdr n (fun h => { h with fl_prev := (al1.mem.readHdr block).fl_prev })) }
      | none => al1
    let al3 :=
      { al2 with mem := (al2.mem.updHdr block (fun h => { h with fl_next := none, fl_prev := none })) }
    (EXIT_SUCCESS, al3)

/-! ### Placement searches (lines 2070-2295) -/

/-- Inner while-loop of MEM_findFirstFit (lines 2103-2113): walk the
free-list chain from `cur`, returning the first candidate that validates,
is free and is large enough.  `fuel` bounds the walk (the C loop would
not terminate on a cyclic chain). -/
def flWalkFirstFit (al : MemAllocator) (size : Nat) : Nat → Option Nat → Option Nat
  | _, none => none
  | 0, some _ => none
  | fuel + 1, some c =>
    if MEM_validateBlock al (some c) = EXIT_SUCCESS ∧
        (al.mem.readHdr c).free ≠ 0 ∧ size ≤ (al.mem.readHdr c).size then
      some c
    else
      flWalkFirstFit al size fuel (al.mem.readHdr c).fl_next

/-- Outer class loop of MEM_findFirstFit (lines 2099-2114). -/
def firstFitClasses (al : MemAllocator) (size : Nat) (fuel : Nat) : List Nat → Int × Option Nat
  | [] => (-ENOMEM, none)
  | i :: rest =>
    match flWalkFirstFit al size fuel (al.free_lists.getD i none) with
    | some c => (EXIT_SUCCESS, some c)
    | none => firstFitClasses al size fuel rest

/-- MEM_findFirstFit: scan bins from `size_class(size)` upward and return
the first valid free block of at least `size` bytes. -/
def MEM_findFirstFit (al : MemAllocator) (size : Nat) (fuel : Nat) : Int × Option Nat :=
  let start_class := MEM_getSizeClass al size
  if start_class < 0 then (-ENOMEM, none)
  else
    firstFitClasses al size fuel
      (List.range' start_class.toNat (al.num_size_classes - start_class.toNat))

/-- Inner while-loop of MEM_findBestFit (lines 2269-2279): walk a chain
tracking the smallest suitable candidate (strict `<`, so ties keep the
first one encountered).  The `Int` component threads the C local `ret`,
which holds the most recent MEM_validateBlock result; the source returns
that value when a best candidate was recorded. -/
def flWalkBestFit (al : MemAllocator) (size : Nat) :
    Nat → Option Nat → Option Nat → Int → Int × Option Nat
  | _, none, best, ret => (ret, best)
  | 0, some _, best, ret => (ret, best)
  | fuel + 1, some c, best, _ =>
    let r := MEM_validateBlock al (some c)
    let best' :=
      if r = EXIT_SUCCESS ∧ (al.mem.readHdr c).free ≠ 0 ∧ size ≤ (al.mem.readHdr c).size then
        match best with
        | none => some c
        | some b => if (al.mem.readHdr c).size < (al.mem.readHdr b).size then some c else best
      else best
    flWalkBestFit al size fuel (al.mem.readHdr c).fl_next best' r

/-- Outer class loop of MEM_findBestFit (lines 2264-2283): once a class
yields a candidate the search stops (early termination). -/
def bestFitClasses (al : MemAllocator) (size : Nat) (fuel : Nat) : Int → List Nat → Int × Option Nat
  | _, [] => (-ENOMEM, none)
  | ret, i :: rest =>
    let rb := flWalkBestFit al size fuel (al.free_lists.getD i none) none ret
    match rb.2 with
    | some b => (rb.1, some b)
    | none => bestFitClasses al size fuel rb.1 rest

/-- MEM_findBestFit. -/
def MEM_findBestFit (al : MemAllocator) (size : Nat) (fuel : Nat) : Int × Option Nat :=
  let start_class := MEM_getSizeClass al size
  if start_class < 0 then (-ENOMEM, none)
  else
    bestFitClasses al size fuel EXIT_SUCCESS
      (List.range' start_class.toNat (al.num_size_classes - start_class.toNat))

/-- Step of the MEM_findNextFit do-while loop (lines 2191-2196): follow
`next`, wrapping to the first user block past the metadata region. -/
def nfStep (al : MemAllocator) (cur : Nat) : Nat :=
  match (al.mem.readHdr cur).next with
  | some nx => nx
  | none => al.heap_start + al.metadata_size

/-- Do-while body of MEM_findNextFit (lines 2181-2198), stopping when the
cursor returns to `start`. -/
def nfLoop (al : MemAllocator) (size : Nat) (start : Nat) : Nat → Nat → Int × Option Nat
  | 0, _ => (-ENOMEM, none)
  | fuel + 1, cur =>
    if MEM_validateBlock al (some cur) = EXIT_SUCCESS ∧
        (al.mem.readHdr cur).free ≠ 0 ∧ size ≤ (al.mem.readHdr cur).size then
      (EXIT_SUCCESS, some cur)
    else
      let nxt := nfStep al cur
      if nxt = start then (-ENOMEM, none)
      else nfLoop al size start fuel nxt

/-- MEM_findNextFit: resume from `last_allocated`; if that cursor is null,
not free, or has a bad magic, fall back to first-fit (updating the cursor
on success).  Returns the possibly-updated allocator. -/
def MEM_findNextFit (al : MemAllocator) (size : Nat) (fuel : Nat) :
    Int × Option Nat × MemAllocator :=
  let fallback : Int × Option Nat × MemAllocator :=
    match MEM_findFirstFit al size fuel with
    | (ret, b) =>
      if ret = EXIT_SUCCESS then (ret, b, { al with last_allocated := b })
      else (ret, b, al)
  match al.last_allocated with
  | none => fallback
  | some start =>
    if (al.mem.readHdr start).free = 0 ∨ (al.mem.readHdr start).magic ≠ MAGIC_NUMBER then
      fallback
    else
      match nfLoop al size start fuel start with
      | (ret, some b) =>
        if ret = EXIT_SUCCESS then (ret, some b, { al with last_allocated := some b })
        else (ret, some b, al)
      | (ret, none) => (ret, none, al)

/-- Strategy dispatch through the `find_fns` table of MEM_allocatorMalloc
(lines 2617-2621); first-fit and best-fit leave the allocator unchanged. -/
def findBlock (strategy : Strategy) (al : MemAllocator) (size : Nat) (fuel : Nat) :
    Int × Option Nat × MemAllocator :=
  match strategy with
  | .FIRST_FIT =>
    match MEM_findFirstFit al size fuel with
    | (ret, b) => (ret, b, al)
  | .BEST_FIT =>
    match MEM_findBestFit al size fuel with
    | (ret, b) => (ret, b, al)
  | .NEXT_FIT => MEM_findNextFit al size fuel

/-! ### MEM_splitBlock (lines 2327-2435) -/

/-- MEM_splitBlock: allocate `req_size` bytes from the free block at
`block`, either consuming the whole block (when the leftover would be
smaller than MIN_BLOCK_SIZE) or carving a new free block at
`block + total_size`. -/
def MEM_splitBlock (al : MemAllocator) (block : Nat) (req_size : Nat) : Int × MemAllocator :=
  let v := MEM_validateBlock al (some block)
  if v ≠ EXIT_SUCCESS then (v, al)
  else
    let aligned_size := ALIGN req_size
    let total_size := aligned_size + sizeofBlockHeader + sizeofWord
    match MEM_removeFreeBlock al block with
    | (rr, al1) =>
      if rr ≠ EXIT_SUCCESS then (rr, al1)
      else
        let original_size := (al1.mem.readHdr block).size
        if original_size < total_size + MIN_BLOCK_SIZE then
          let m1 := al1.mem.updHdr block
            (fun h => { h with free := 0, magic := MAGIC_NUMBER, canary := CANARY_VALUE })
          let m2 := m1.writeWord (block + original_size - sizeofWord) CANARY_VALUE
          (EXIT_SUCCESS, { al1 with mem := m2 })
        else
          let remaining_size := original_size - total_size
          let m1 := al1.mem.updHdr block
            (fun h => { h with size := total_size, free := 0, magic := MAGIC_NUMBER, canary := CANARY_VALUE })
          let m2 := m1.writeWord (block + total_size - sizeofWord) CANARY_VALUE
          let new_block := block + total_size
          let bnext := (m2.readHdr block).next
          let m3 := m2.updHdr new_block
            (fun h => { h with magic := MAGIC_NUMBER, size := remaining_size, free := 1
                             , marked := 0, file := "", line := 0, var_name := ""
                             , prev := some block, next := bnext })
          let m4 :=
            match bnext with
            | some nx => m3.updHdr nx (fun h => { h with prev := some new_block })
            | none => m3
          let m5 := m4.updHdr block (fun h => { h with next := some new_block })
          let m6 := m5.updHdr new_block (fun h => { h with canary := CANARY_VALUE })
          let m7 := m6.writeWord (new_block + remaining_size - sizeofWord) CANARY_VALUE
          let m8 := m7.updHdr new_block (fun h => { h with fl_next := none, fl_prev := none })
          MEM_insertFreeBlock { al1 with mem := m8 } new_block

/-! ### MEM_mergeBlocks (lines 2459-2563) -/

/-- MEM_mergeBlocks: merge the free block at `block0` with its
address-order next neighbour (found at `block0 + size`) and then with its
`prev`-linked neighbour when they are valid and free, finally reinserting
the resulting block into its bin.  Note the local cursor moves to the
previous block after a prev-merge, exactly as in the source. -/
def MEM_mergeBlocks (al : MemAllocator) (block0 : Nat) : Int × MemAllocator :=
  let v := MEM_validateBlock al (some block0)
  if v ≠ EXIT_SUCCESS then (v, al)
  else
    let next_addr := block0 + (al.mem.readHdr block0).size
    let step1 : Int × MemAllocator :=
      if next_addr + sizeofBlockHeader ≤ al.heap_end then
        if MEM_validateBlock al (some next_addr) = EXIT_SUCCESS ∧
            (al.mem.readHdr next_addr).free ≠ 0 then
          match MEM_removeFreeBlock al next_addr with
          | (rr, al1) =>
            if rr ≠ EXIT_SUCCESS then (rr, al1)
            else
              let nsize := (al1.mem.readHdr next_addr).size
              let nnext := (al1.mem.readHdr next_addr).next
              let m1 := al1.mem.updHdr block0
                (fun h => { h with size := h.size + nsize, next := nnext })
              let m2 :=
                match nnext with
                | some nn => m1.updHdr nn (fun h => { h with prev := some block0 })
                | none => m1
              let m3 := m2.writeWord (block0 + (m2.readHdr block0).size - sizeofWord) CANARY_VALUE
              (EXIT_SUCCESS, { al1 with mem := m3 })
        else (EXIT_SUCCESS, al)
      else (EXIT_SUCCESS, al)
    match step1 with
    | (r1, al2) =>
      if r1 ≠ EXIT_SUCCESS then (r1, al2)
      else
        let step2 : Int × Nat × MemAllocator :=
          match (al2.mem.readHdr block0).prev with
          | some prev_block =>
            if MEM_validateBlock al2 (some prev_block) = EXIT_SUCCESS ∧
                (al2.mem.readHdr prev_block).free ≠ 0 then
              match MEM_removeFreeBlock al2 prev_block with
              | (rr, al3) =>
                if rr ≠ EXIT_SUCCESS then (rr, block0, al3)
                else
                  let bsize := (al3.mem.readHdr block0).size
                  let bnext := (al3.mem.readHdr block0).next
                  let m1 := al3.mem.updHdr prev_block
                    (fun h => { h with size := h.size + bsize, next := bnext })
                  let m2 :=
                    match bnext with
                    | some bn => m1.updHdr bn (fun h => { h with prev := some prev_block })
                    | none => m1
                  let m3 := m2.writeWord (prev_block + (m2.readHdr prev_block).size - sizeofWord)
                    CANARY_VALUE
                  (EXIT_SUCCESS, prev_block, { al3 with mem := m3 })
            else (EXIT_SUCCESS, block0, al2)
          | none => (EXIT_SUCCESS, block0, al2)
        match step2 with
        | (r2, blockF, al4) =>
          if r2 ≠ EXIT_SUCCESS then (r2, al4)
          else
            let m := al4.mem.updHdr blockF (fun h => { h with fl_next := none, fl_prev := none })
            MEM_insertFreeBlock { al4 with mem := m } blockF

/-! ### MEM_growUserHeap (lines 1817-1854) -/

/-- MEM_growUserHeap: move the break by `inc`, zero the new region, seed
a bare header (size/free/marked only) at its base, and record the lease
(`last_brk_start`/`last_brk_end`) and the new `heap_end`. -/
def MEM_growUserHeap (al : MemAllocator) (inc : Int) : Int × MemAllocator :=
  match MEM_sbrk al inc with
  | (old, al1) =>
    if old < 0 then (old, al1)
    else
      let oldN := old.toNat
      let m1 := al1.mem.memsetZero oldN inc.toNat
      let m2 := m1.updHdr oldN (fun h => { h with size := inc.toNat, free := 1, marked := 0 })
      let al2 := { al1 with
        mem := m2,
        heap_end := (old + inc).toNat,
        last_brk_start := some oldN,
        last_brk_end := some (old + inc).toNat }
      (old, al2)

/-! ### MEM_mapAlloc (lines 1876-1962) -/

/-- MEM_mapAlloc: round `total_size` up to pages, obtain an anonymous
mapping, allocate an `mmap_t` node through the allocator (the source
calls `MEM_allocatorMalloc(allocator, sizeof(mmap_t), FIRST_FIT)`, passed
here as `mallocF` to tie the recursive knot), prepend the node to
`mmap_list`, and write a block header (magic, size, free = 0, marked = 1,
no header canary) plus trailing canary into the mapped region.

The source checks the node pointer against NULL only (line 1926), so an
encoded-error pointer from the inner malloc is not caught there; the
model mirrors that check. -/
def MEM_mapAlloc (mallocF : MemAllocator → Int × MemAllocator)
    (al : MemAllocator) (total_size : Nat) : Int × MemAllocator :=
  let page := al.page_size
  let map_size := (total_size + page - 1) / page * page
  if al.mmap_ok = false then (- EIO, al)
  else
    let base := al.next_map_base
    let al0 := { al with next_map_base := base + map_size }
    match mallocF al0 with
    | (map_block, al1) =>
      if map_block = 0 then (-ENOMEM, al1)
      else
        let al2 := { al1 with
          mmap_list := { addr := base, size := map_size, node := map_block.toNat } :: al1.mmap_list }
        let m1 := al2.mem.updHdr base
          (fun h => { h with magic := MAGIC_NUMBER, size := map_size, free := 0, marked := 1
                           , prev := none, next := none, file := "", line := 0, var_name := "" })
        let m2 := m1.writeWord (base + map_size - sizeofWord) CANARY_VALUE
        (Int.ofNat base, { al2 with mem := m2 })

/-! ### MEM_allocatorMalloc (lines 2595-2747) -/

/-- Tail of the heap path of MEM_allocatorMalloc after a placement search
succeeded (lines 2714-2734): record the next-fit cursor and the arena's
top chunk, split the block, stamp the diagnostics, and return the
payload pointer. -/
def mallocAfterFind (al : MemAllocator) (ret : Int) (block : Option Nat) (size : Nat)
    (file : String) (line : Nat) (var : String) (strategy : Strategy) : Int × MemAllocator :=
  if ret ≠ EXIT_SUCCESS then
    (if ret = -ENOMEM then (-ENOMEM : Int) else - EIO, al)
  else
    match block with
    | none => (0, al)
    | some b =>
      let al1 := if strategy = Strategy.NEXT_FIT then { al with last_allocated := some b } else al
      let al2 := { al1 with top_chunk := some b }
      match MEM_splitBlock al2 b size with
      | (rs, al3) =>
        if rs ≠ EXIT_SUCCESS then (0, al3)
        else
          let m := al3.mem.updHdr b (fun h => { h with file := file, line := line, var_name := var })
          (Int.ofNat (b + sizeofBlockHeader), { al3 with mem := m })

/-- Grow-and-retry block of the heap path of MEM_allocatorMalloc (lines
2674-2712): when the placement search reported out-of-space, grow the
heap by `total_size` (zeroed), re-record the lease, seed a single fresh
free block spanning it (magic, canaries, `free = 1`), insert it into its
bin, and run the placement search once more. -/
def mallocGrowRetry (al1 : MemAllocator) (total_size size : Nat)
    (file : String) (line : Nat) (var : String) (strategy : Strategy) (fuel : Nat) :
    Int × MemAllocator :=
  match MEM_growUserHeap al1 (Int.ofNat total_size) with
  | (old_brk, al2) =>
    if old_brk < 0 then (-ENOMEM, al2)
    else
      let ob := old_brk.toNat
      let al3 := { al2 with
        last_brk_start := some ob,
        last_brk_end := some (ob + total_size) }
      let m1 := al3.mem.updHdr ob
        (fun h => { h with magic := MAGIC_NUMBER, size := total_size, free := 1
                         , marked := 0, next := none, prev := none
                         , canary := CANARY_VALUE })
      let m2 := m1.writeWord (ob + total_size - sizeofWord) CANARY_VALUE
      let m3 := m2.updHdr ob (fun h => { h with fl_next := none, fl_prev := none })
      match MEM_insertFreeBlock { al3 with mem := m3 } ob with
      | (ri, al4) =>
        if ri ≠ EXIT_SUCCESS then (0, al4)
        else
          match findBlock strategy al4 total_size fuel with
          | (ret1, blk1, al5) =>
            mallocAfterFind al5 ret1 blk1 size file line var strategy

/-- MEM_allocatorMalloc: map path for sizes strictly above MMAP_THRESHOLD
(line 2637 `size > MMAP_THRESHOLD`), heap path otherwise, with a single
grow-and-retry on out-of-space.  `fuel` bounds the recursion through
MEM_mapAlloc (whose metadata allocation re-enters this function) and the
free-list walks of the placement searches. -/
def MEM_allocatorMalloc (fuel : Nat) (al : MemAllocator) (size : Nat)
    (file : String) (line : Nat) (var : String) (strategy : Strategy) : Int × MemAllocator :=
  match fuel with
  | 0 => (-ELOOP, al)
  | fuel + 1 =>
    if size = 0 then (-EINVAL, al)
    else
      let total_size := ALIGN size + sizeofBlockHeader + sizeofWord
      if MMAP_THRESHOLD < size then
        match MEM_mapAlloc
            (fun a => MEM_allocatorMalloc fuel a sizeofMmapT "libmemalloc.c" 1920 "mmap_meta"
              Strategy.FIRST_FIT)
            al total_size with
        | (raw_mmap, al1) =>
          if raw_mmap = 0 then (-ENOMEM, al1)
          else
            let block := raw_mmap.toNat
            let m1 := al1.mem.updHdr block
              (fun h => { h with magic := MAGIC_NUMBER, size := total_size, free := 0
                               , marked := 0, next := none, prev := none, canary := CANARY_VALUE })
            let m2 := m1.writeWord (block + total_size - sizeofWord) CANARY_VALUE
            let m3 := m2.updHdr block
              (fun h => { h with file := file, line := line, var_name := var })
            (Int.ofNat (block + sizeofBlockHeader), { al1 with mem := m3 })
      else
        match findBlock strategy al total_size fuel with
        | (ret0, blk0, al1) =>
          if ret0 = -ENOMEM then
            mallocGrowRetry al1 total_size size file line var strategy fuel
          else
            mallocAfterFind al1 ret0 blk0 size file line var strategy

/-! ### MEM_mapFree (lines 1983-2047) -/

/-- Walk of MEM_mapFree over `mmap_list` (lines 2003-2043): on an address
match, unmap the region (oracle `munmap_ok`), unlink the node, and free
the node's heap allocation through `freeF` (the source calls the full
MEM_allocatorFree there); scanning continues after a match. -/
def mapFreeWalk (freeF : MemAllocator → Int → Int × MemAllocator) (addr : Nat) :
    MemAllocator → List MmapEnt → List MmapEnt → Int × MemAllocator
  | al, acc, [] => (EXIT_SUCCESS, { al with mmap_list := acc.reverse })
  | al, acc, m :: rest =>
    if m.addr = addr then
      if al.munmap_ok = false then
        (-ENOMEM, { al with mmap_list := acc.reverse ++ (m :: rest) })
      else
        let al1 := { al with mmap_list := acc.reverse ++ rest }
        match freeF al1 (Int.ofNat m.node) with
        | (rf, al2) =>
          if rf ≠ EXIT_SUCCESS then (rf, al2)
          else mapFreeWalk freeF addr al2 acc rest
    else
      mapFreeWalk freeF addr al (m :: acc) rest

/-- MEM_mapFree. -/
def MEM_mapFree (freeF : MemAllocator → Int → Int × MemAllocator)
    (al : MemAllocator) (addr : Int) : Int × MemAllocator :=
  if addr = 0 then (-EINVAL, al)
  else mapFreeWalk freeF addr.toNat al [] al.mmap_list

/-! ### MEM_allocatorFree (lines 2957-3087) -/

/-- MEM_allocatorFree: NULL rejection, map-list dispatch, validation,
double-free rejection, mark-as-free, coalescing, and the conservative
tail shrink (move the break back by exactly the recorded lease when the
freed block ends at the break; a failed shrink reinserts the block and
still succeeds).  `fuel` bounds the recursion through MEM_mapFree (which
frees the mmap_t node via this function). -/
def MEM_allocatorFree (fuel : Nat) (al : MemAllocator) (ptr : Int)
    (file : String) (line : Nat) (var : String) : Int × MemAllocator :=
  match fuel with
  | 0 => (-ELOOP, al)
  | fuel + 1 =>
    if ptr = 0 then (-EINVAL, al)
    else
      let block := (ptr - Int.ofNat sizeofBlockHeader).toNat
      match al.mmap_list.find? (fun m => m.addr == block) with
      | some m =>
        MEM_mapFree (fun a p => MEM_allocatorFree fuel a p "libmemalloc.c" 2023 "mmap_meta")
          al (Int.ofNat m.addr)
      | none =>
        let v := MEM_validateBlock al (some block)
        if v ≠ EXIT_SUCCESS then (v, al)
        else if (al.mem.readHdr block).free ≠ 0 then (-EINVAL, al)
        else
          let m1 := al.mem.updHdr block
            (fun h => { h with free := 1, marked := 0, file := file, line := line, var_name := var })
          match MEM_mergeBlocks { al with mem := m1 } block with
          | (rm, al2) =>
            if rm ≠ EXIT_SUCCESS then (rm, al2)
            else
              let block_end := block + (al2.mem.readHdr block).size
              if block_end = al2.heap_end then
                let cur_brk := al2.brk
                if cur_brk = al2.heap_end ∧ al2.last_brk_start ≠ none ∧
                    al2.last_brk_end ≠ none ∧ al2.last_brk_end = some al2.heap_end then
                  let lease := (al2.last_brk_end.getD 0) - (al2.last_brk_start.getD 0)
                  if 0 < lease ∧ lease ≤ (al2.mem.readHdr block).size then
                    match MEM_removeFreeBlock al2 block with
                    | (rr, al3) =>
                      if rr ≠ EXIT_SUCCESS then (rr, al3)
                      else
                        let delta := -(Int.ofNat lease)
                        match MEM_sbrk al3 delta with
                        | (old, al4) =>
                          if 0 ≤ old then
                            let al5 := { al4 with
                              heap_end := al4.heap_end - lease,
                              last_brk_start := none,
                              last_brk_end := none,
                              last_allocated := some al4.heap_start }
                            (EXIT_SUCCESS, al5)
                          else
                            match MEM_insertFreeBlock al4 block with
                            | (_, al5) => (EXIT_SUCCESS, al5)
                  else (EXIT_SUCCESS, al2)
                else (EXIT_SUCCESS, al2)
              else (EXIT_SUCCESS, al2)

/-! ### MEM_allocatorRealloc (lines 2776-2858) -/

/-- MEM_allocatorRealloc: NULL behaves as malloc; a validated block whose
current payload (`size - sizeof(header) - word`) already covers
`new_size` is returned unchanged; otherwise allocate, copy the old
payload, and free the old block. -/
def MEM_allocatorRealloc (fuel : Nat) (al : MemAllocator) (ptr : Int) (new_size : Nat)
    (file : String) (line : Nat) (var : String) (strategy : Strategy) : Int × MemAllocator :=
  if new_size = 0 then (-EINVAL, al)
  else if ptr = 0 then MEM_allocatorMalloc fuel al new_size file line var strategy
  else
    let old_block := (ptr - Int.ofNat sizeofBlockHeader).toNat
    let v := MEM_validateBlock al (some old_block)
    if v ≠ EXIT_SUCCESS then (0, al)
    else
      let old_size := (al.mem.readHdr old_block).size - sizeofBlockHeader - sizeofWord
      if new_size ≤ old_size then (ptr, al)
      else
        match MEM_allocatorMalloc fuel al new_size file line var strategy with
        | (new_ptr, al1) =>
          if new_ptr ≠ 0 then
            let al2 := { al1 with mem := al1.mem.memcpyEv new_ptr.toNat ptr.toNat old_size }
            match MEM_allocatorFree fuel al2 ptr file line var with
            | (_, al3) => (new_ptr, al3)
          else (new_ptr, al1)

/-! ### Facade (lines 3873-3888) and MEM_allocatorInit (lines 1664-1797) -/

/-- MEM_allocFree: the public facade that locks the allocator mutex and
delegates to MEM_allocatorFree with the facade's own source location
(the lock is not part of this sequential model). -/
def MEM_allocFree (fuel : Nat) (al : MemAllocator) (ptr : Int) (var : String) :
    Int × MemAllocator :=
  MEM_allocatorFree fuel al ptr "libmemalloc.c" 3884 var

/-- MEM_allocatorInit for an aligned initial break at `base`: grow for the
arena struct (24 bytes) and the bins array (10 pointers, 80 bytes), zero
the bins, and set up the allocator fields; `metadata_size` covers both
(104 bytes).  The OS oracle is set to a working `sbrk`/`mmap`/`munmap`
with mappings placed from `mapBase`. -/
def MEM_allocatorInit (base : Nat) (pageSize : Nat) (mapBase : Nat) : MemAllocator :=
  let al0 : MemAllocator := {
    heap_start := base, heap_end := base, metadata_size := 0,
    num_size_classes := 0, free_lists := [], last_allocated := none,
    top_chunk := none, last_brk_start := none, last_brk_end := none,
    mmap_list := [], mem := emptyMemory, brk := base,
    sbrk_ok := true, mmap_ok := true, munmap_ok := true,
    next_map_base := mapBase, page_size := pageSize }
  match MEM_growUserHeap al0 (Int.ofNat sizeofMemArenaT) with
  | (_, al1) =>
    match MEM_growUserHeap al1 (Int.ofNat (DEFAULT_NUM_BINS * 8)) with
    | (_, al2) =>
      { al2 with
        mem := al2.mem.memsetZero (base + sizeofMemArenaT) (DEFAULT_NUM_BINS * 8),
        free_lists := List.replicate DEFAULT_NUM_BINS none,
        num_size_classes := DEFAULT_NUM_BINS,
        metadata_size := sizeofMemArenaT + DEFAULT_NUM_BINS * 8,
        mmap_list := [],
        last_allocated := none }

/-! ## Memory access lemmas -/

theorem find?_filter_of_imp {α : Type} (l : List α) (p q : α → Bool)
    (h : ∀ x, p x = true → q x = true) :
    (l.filter q).find? p = l.find? p := by
  induction l with
  | nil => rfl
  | cons a t ih =>
    by_cases hpa : p a = true
    · have hqa := h a hpa
      simp [List.filter, hqa, List.find?, hpa, ih]
    · have hpa' : p a = false := by
        cases hp : p a
        · rfl
        · exact absurd hp hpa
      cases hqa : q a
      · simp [List.filter, hqa, List.find?, hpa', ih]
      · simp [List.filter, hqa, List.find?, hpa', ih]

theorem Memory.readHdr_writeHdr_same (m : Memory) (a : Nat) (h : BlockHeader) :
    (m.writeHdr a h).readHdr a = h := by
  simp [Memory.readHdr, Memory.writeHdr, List.find?]

theorem Memory.readHdr_writeHdr_ne (m : Memory) (a b : Nat) (h : BlockHeader)
    (hab : a ≠ b) :
    (m.writeHdr a h).readHdr b = m.readHdr b := by
  have hba : (b == a) = false := by simp [Ne.symm hab]
  simp only [Memory.readHdr, Memory.writeHdr, List.find?]
  have : ((a, h).1 == b) = false := by simp [hab]
  simp only [this]
  rw [find?_filter_of_imp]
  intro x hx
  have hxa : x.1 = b := by simpa using hx
  simp [hxa, Ne.symm hab]

theorem Memory.readHdr_updHdr_same (m : Memory) (a : Nat) (f : BlockHeader → BlockHeader) :
    (m.updHdr a f).readHdr a = f (m.readHdr a) := by
  simp [Memory.updHdr, Memory.readHdr_writeHdr_same]

theorem Memory.readHdr_updHdr_ne (m : Memory) (a b : Nat) (f : BlockHeader → BlockHeader)
    (hab : a ≠ b) :
    (m.updHdr a f).readHdr b = m.readHdr b := by
  simp [Memory.updHdr, Memory.readHdr_writeHdr_ne _ _ _ _ hab]

theorem Memory.readWord_writeHdr (m : Memory) (a : Nat) (h : BlockHeader) (w : Nat) :
    (m.writeHdr a h).readWord w = m.readWord w := rfl

theorem Memory.readWord_updHdr (m : Memory) (a : Nat) (f : BlockHeader → BlockHeader) (w : Nat) :
    (m.updHdr a f).readWord w = m.readWord w := rfl

theorem Memory.readHdr_writeWord (m : Memory) (a v : Nat) (b : Nat) :
    (m.writeWord a v).readHdr b = m.readHdr b := rfl

theorem Memory.readWord_writeWord_same (m : Memory) (a v : Nat) :
    (m.writeWord a v).readWord a = v := by
  simp [Memory.readWord, Memory.writeWord, List.find?]

theorem Memory.readWord_writeWord_ne (m : Memory) (a v b : Nat) (hab : a ≠ b) :
    (m.writeWord a v).readWord b = m.readWord b := by
  simp only [Memory.readWord, Memory.writeWord, List.find?]
  have : ((a, v).1 == b) = false := by simp [hab]
  simp only [this]
  rw [find?_filter_of_imp]
  intro x hx
  have hxa : x.1 = b := by simpa using hx
  simp [hxa, Ne.symm hab]

/-! ## Concrete test states -/

/-- An allocator initialized at an aligned break of 1000000, with 4 KiB
pages and fresh mappings placed from 2000000. -/
def initState : MemAllocator := MEM_allocatorInit 1000000 4096 2000000

/-- A 100-byte first-fit allocation on the fresh allocator (grows the
heap by 200 bytes and consumes the whole grown block). -/
def alloc100 : Int × MemAllocator :=
  MEM_allocatorMalloc 5 initState 100 "test.c" 1 "x" Strategy.FIRST_FIT

/-- Freeing that allocation (ends at the break and matches the recorded
lease, so the conservative shrink runs). -/
def free100 : Int × MemAllocator :=
  MEM_allocatorFree 5 alloc100.2 alloc100.1 "test.c" 2 "x"

/-- An allocation of MMAP_THRESHOLD + 1 bytes (strictly above the
threshold, so the source takes the map path). -/
def allocOverThreshold : Int × MemAllocator :=
  MEM_allocatorMalloc 5 initState (MMAP_THRESHOLD + 1) "test.c" 3 "y" Strategy.FIRST_FIT

/-- An allocation of exactly MMAP_THRESHOLD bytes. -/
def allocAtThreshold : Int × MemAllocator :=
  MEM_allocatorMalloc 5 initState MMAP_THRESHOLD "test.c" 4 "z" Strategy.FIRST_FIT

/-! ## mmap_list preservation along the heap path -/

theorem MEM_sbrk_mmap (al : MemAllocator) (inc : Int) :
    (MEM_sbrk al inc).2.mmap_list = al.mmap_list := by
  unfold MEM_sbrk
  split <;> rfl

theorem MEM_growUserHeap_mmap (al : MemAllocator) (inc : Int) :
    (MEM_growUserHeap al inc).2.mmap_list = al.mmap_list := by
  unfold MEM_growUserHeap
  have h := MEM_sbrk_mmap al inc
  rcases hE : MEM_sbrk al inc with ⟨old, al1⟩
  rw [hE] at h
  simp only [hE]
  split <;> simpa using h

theorem MEM_insertFreeBlock_mmap (al : MemAllocator) (b : Nat) :
    (MEM_insertFreeBlock al b).2.mmap_list = al.mmap_list := by
  unfold MEM_insertFreeBlock
  dsimp only
  split <;> rfl

theorem MEM_removeFreeBlock_mmap (al : MemAllocator) (b : Nat) :
    (MEM_removeFreeBlock al b).2.mmap_list = al.mmap_list := by
  unfold MEM_removeFreeBlock
  dsimp only
  split
  · rfl
  · split <;> split <;> rfl

theorem MEM_splitBlock_mmap (al : MemAllocator) (b : Nat) (req : Nat) :
    (MEM_splitBlock al b req).2.mmap_list = al.mmap_list := by
  unfold MEM_splitBlock
  try dsimp only
  split
  · rfl
  · have hrm := MEM_removeFreeBlock_mmap al b
    rcases hE : MEM_removeFreeBlock al b with ⟨rr, al1⟩
    rw [hE] at hrm
    simp only [hE]
    try dsimp only
    split
    · simpa using hrm
    · split
      · simpa using hrm
      · rw [MEM_insertFreeBlock_mmap]
        simpa using hrm

theorem MEM_findNextFit_mmap (al : MemAllocator) (size fuel : Nat) :
    (MEM_findNextFit al size fuel).2.2.mmap_list = al.mmap_list := by
  unfold MEM_findNextFit
  dsimp only
  repeat' split
  all_goals rfl

theorem findBlock_mmap (strategy : Strategy) (al : MemAllocator) (size fuel : Nat) :
    (findBlock strategy al size fuel).2.2.mmap_list = al.mmap_list := by
  cases strategy
  case NEXT_FIT => exact MEM_findNextFit_mmap al size fuel
  all_goals
    unfold findBlock
    dsimp only
    try (split <;> rfl)
    try rfl

theorem mallocAfterFind_mmap (al : MemAllocator) (ret : Int) (block : Option Nat)
    (size : Nat) (file : String) (line : Nat) (var : String) (strategy : Strategy) :
    (mallocAfterFind al ret block size file line var strategy).2.mmap_list = al.mmap_list := by
  unfold mallocAfterFind
  split
  · rfl
  · split
    · rfl
    · rename_i b
      dsimp only
      set al1 := if strategy = Strategy.NEXT_FIT then { al with last_allocated := some b } else al
        with hal1def
      have hal1 : al1.mmap_list = al.mmap_list := by
        rw [hal1def]
        split <;> rfl
      set al2 : MemAllocator := { al1 with top_chunk := some b } with hal2def
      have hal2 : al2.mmap_list = al.mmap_list := hal1
      have hsp := MEM_splitBlock_mmap al2 b size
      rcases hE : MEM_splitBlock al2 b size with ⟨rs, al3⟩
      rw [hE] at hsp
      simp only [hE]
      split
      · exact hsp.trans hal2
      · exact hsp.trans hal2

theorem mallocGrowRetry_mmap (al1 : MemAllocator) (total_size size : Nat)
    (file : String) (line : Nat) (var : String) (strategy : Strategy) (fuel : Nat) :
    (mallocGrowRetry al1 total_size size file line var strategy fuel).2.mmap_list
      = al1.mmap_list := by
  unfold mallocGrowRetry
  have hgw := MEM_growUserHeap_mmap al1 (Int.ofNat total_size)
  rcases hG : MEM_growUserHeap al1 (Int.ofNat total_size) with ⟨old_brk, al2⟩
  rw [hG] at hgw
  simp only [hG]
  split
  · exact hgw
  · try dsimp only
    split
    · try dsimp only
      rw [MEM_insertFreeBlock_mmap]
      try dsimp only
      exact hgw
    · rw [mallocAfterFind_mmap, findBlock_mmap, MEM_insertFreeBlock_mmap]
      try dsimp only
      exact hgw

/-- The heap path of MEM_allocatorMalloc never touches the map list: an
allocation of at most MMAP_THRESHOLD bytes leaves `mmap_list` unchanged. -/
theorem MEM_allocatorMalloc_heap_mmap (fuel : Nat) (al : MemAllocator) (size : Nat)
    (file : String) (line : Nat) (var : String) (strategy : Strategy)
    (hsize : size ≤ MMAP_THRESHOLD) :
    (MEM_allocatorMalloc (fuel + 1) al size file line var strategy).2.mmap_list
      = al.mmap_list := by
  have hnot : ¬ MMAP_THRESHOLD < size := not_lt.mpr hsize
  unfold MEM_allocatorMalloc
  split
  · rfl
  · simp only [if_neg hnot]
    have hfb := findBlock_mmap strategy al (ALIGN size + sizeofBlockHeader + sizeofWord) fuel
    rcases hE : findBlock strategy al (ALIGN size + sizeofBlockHeader + sizeofWord) fuel
      with ⟨ret0, blk0, al1⟩
    rw [hE] at hfb
    simp only [hE]
    split
    · rw [mallocGrowRetry_mmap]
      exact hfb
    · rw [mallocAfterFind_mmap]
      exact hfb

/-! ## Structural validity bundles -/

/-- The structural checks of MEM_validateBlock for a heap pointer, in the
order performed by the source before the magic comparison: region
membership, alignment, metadata bound, header fit, minimum and aligned
size, and region overflow. -/
def StructOkHeap (al : MemAllocator) (addr : Nat) : Prop :=
  (al.heap_start ≤ addr ∧ addr < al.heap_end) ∧
  addr % ARCH_ALIGNMENT = 0 ∧
  al.heap_start + al.metadata_size ≤ addr ∧
  addr ≤ al.heap_end - sizeofBlockHeader ∧
  sizeofBlockHeader + sizeofWord ≤ (al.mem.readHdr addr).size ∧
  (al.mem.readHdr addr).size % ARCH_ALIGNMENT = 0 ∧
  addr + (al.mem.readHdr addr).size ≤ al.heap_end

/-- Full validity of a heap block: the structural checks together with
the magic word, the header canary and the trailing canary. -/
def ValidHeapBlockFacts (al : MemAllocator) (addr : Nat) : Prop :=
  StructOkHeap al addr ∧
  (al.mem.readHdr addr).magic = MAGIC_NUMBER ∧
  (al.mem.readHdr addr).canary = CANARY_VALUE ∧
  al.mem.readWord (addr + (al.mem.readHdr addr).size - sizeofWord) = CANARY_VALUE

instance (al : MemAllocator) (addr : Nat) : Decidable (StructOkHeap al addr) := by
  unfold StructOkHeap
  infer_instance

instance (al : MemAllocator) (addr : Nat) : Decidable (ValidHeapBlockFacts al addr) := by
  unfold ValidHeapBlockFacts
  infer_instance

theorem validate_of_structOk_magic_ne (al : MemAllocator) (addr : Nat)
    (hs : StructOkHeap al addr)
    (hm : (al.mem.readHdr addr).magic ≠ MAGIC_NUMBER) :
    MEM_validateBlock al (some addr) = -ENOENT := by
  obtain ⟨hreg, halign, hmeta, hfit, hmin, hszal, hovf⟩ := hs
  unfold MEM_validateBlock
  dsimp only
  rw [if_pos hreg]
  unfold validateHeapPath
  rw [if_neg (by omega), if_neg (by omega), if_neg (by omega)]
  dsimp only
  rw [if_neg (by omega), if_neg (by omega), if_neg (by omega), if_pos hm]

theorem validate_of_structOk_canary_ne (al : MemAllocator) (addr : Nat)
    (hs : StructOkHeap al addr)
    (hm : (al.mem.readHdr addr).magic = MAGIC_NUMBER)
    (hc : (al.mem.readHdr addr).canary ≠ CANARY_VALUE) :
    MEM_validateBlock al (some addr) = -EPROTO := by
  obtain ⟨hreg, halign, hmeta, hfit, hmin, hszal, hovf⟩ := hs
  unfold MEM_validateBlock
  dsimp only
  rw [if_pos hreg]
  unfold validateHeapPath
  rw [if_neg (by omega), if_neg (by omega), if_neg (by omega)]
  dsimp only
  rw [if_neg (by omega), if_neg (by omega), if_neg (by omega),
      if_neg (by simpa using hm), if_pos hc]

theorem validate_of_validFacts (al : MemAllocator) (addr : Nat)
    (hv : ValidHeapBlockFacts al addr) :
    MEM_validateBlock al (some addr) = EXIT_SUCCESS := by
  obtain ⟨⟨hreg, halign, hmeta, hfit, hmin, hszal, hovf⟩, hm, hc, ht⟩ := hv
  unfold MEM_validateBlock
  dsimp only
  rw [if_pos hreg]
  unfold validateHeapPath
  rw [if_neg (by omega), if_neg (by omega), if_neg (by omega)]
  dsimp only
  rw [if_neg (by omega), if_neg (by omega), if_neg (by omega),
      if_neg (by simpa using hm), if_neg (by simpa using hc),
      if_neg (by simpa using ht)]

/-! ## Corruption states for C2 -/

/-- The allocator of `alloc100` with the allocated block's magic word
smashed (models metadata corruption of a managed, structurally sound
block). -/
def corruptMagicState : MemAllocator :=
  { alloc100.2 with
    mem := alloc100.2.mem.updHdr 1000104 (fun h => { h with magic := 0 }) }

/-- The allocator of `alloc100` with the allocated block's header canary
smashed (magic intact). -/
def corruptCanaryState : MemAllocator :=
  { alloc100.2 with
    mem := alloc100.2.mem.updHdr 1000104 (fun h => { h with canary := 0 }) }

/-! ## Claim theorems -/

/-- C10: freeing a null pointer returns -EINVAL and leaves the allocator
state (heap extent, free lists, map list, memory) entirely unchanged,
both through the core MEM_allocatorFree and through the MEM_allocFree
facade; freeing null is an error, not a C-style no-op. -/
theorem C10_free_null (fuel : Nat) (al : MemAllocator) (file : String) (line : Nat)
    (var : String) :
    MEM_allocatorFree (fuel + 1) al 0 file line var = (-EINVAL, al) ∧
    MEM_allocFree (fuel + 1) al 0 var = (-EINVAL, al) := by
  constructor <;> simp [MEM_allocatorFree, MEM_allocFree]

/-- C1 counterexample: on a freshly initialized allocator, a request of
exactly MMAP_THRESHOLD (= 128 KiB) bytes succeeds with a heap payload
pointer (the heap grew from 1000104 to 1131272) and records no map entry
at all, so it is not served through the map path as the claim states
(the source dispatches on `size > MMAP_THRESHOLD`, line 2637). -/
theorem C1_counterexample :
    allocAtThreshold.1 = Int.ofNat 1000192 ∧
    allocAtThreshold.2.mmap_list = [] ∧
    allocAtThreshold.2.heap_end = 1131272 ∧
    initState.heap_end = 1000104 := by
  refine ⟨by decide, by decide, by decide, by decide⟩

/-- C1 (amended): the dispatch threshold is strict — a request of
MMAP_THRESHOLD or fewer bytes (in particular both M and M − 1) is served
through the heap path and never touches the map list, while a request of
MMAP_THRESHOLD + 1 bytes is served through the map path (a page-rounded
map entry is recorded and the returned payload points into the mapped
region). -/
theorem C1_threshold_dispatch :
    (∀ (fuel : Nat) (al : MemAllocator) (size : Nat) (file : String) (line : Nat)
      (var : String) (strategy : Strategy), size ≤ MMAP_THRESHOLD →
      (MEM_allocatorMalloc (fuel + 1) al size file line var strategy).2.mmap_list
        = al.mmap_list) ∧
    allocOverThreshold.1 = Int.ofNat 2000088 ∧
    allocOverThreshold.2.mmap_list = [{ addr := 2000000, size := 135168, node := 1000192 }] := by
  refine ⟨fun fuel al size file line var strategy h =>
    MEM_allocatorMalloc_heap_mmap fuel al size file line var strategy h, by decide, by decide⟩

/-- C1 witness: the universal heap-path part of `C1_threshold_dispatch`
applied at the threshold itself on the concrete initialized allocator. -/
theorem C1_witness :
    (MEM_allocatorMalloc 1 initState MMAP_THRESHOLD "test.c" 4 "z"
      Strategy.FIRST_FIT).2.mmap_list = initState.mmap_list :=
  C1_threshold_dispatch.1 0 initState MMAP_THRESHOLD "test.c" 4 "z" Strategy.FIRST_FIT
    (by decide)

/-- C2 counterexample: in a managed heap with one structurally sound
block at 1000104 whose magic word was corrupted, validation fails with
-ENOENT — exactly the same error kind the source returns for a
structural failure (a misaligned pointer such as 1000105), so the
magic-mismatch error is not distinct from the not-our-block error kind.
(The distinct corrupt kinds -EPROTO / -EOVERFLOW are produced only by
the canary checks.) -/
theorem C2_counterexample :
    MEM_validateBlock corruptMagicState (some 1000104) = -ENOENT ∧
    MEM_validateBlock corruptMagicState (some 1000105) = -ENOENT ∧
    MEM_validateBlock corruptCanaryState (some 1000104) = -EPROTO := by
  refine ⟨by decide, by decide, by decide⟩

/-- C2 (amended): for a heap pointer that passes all structural checks,
a magic-word mismatch makes validation fail with the not-our-block kind
(-ENOENT), the same kind used for structural failures before the magic
check; the corrupt-block kind (-EPROTO) is produced only when the magic
matches and the header canary fails. -/
theorem C2_magic_error_kind (al : MemAllocator) (addr : Nat)
    (hs : StructOkHeap al addr) :
    ((al.mem.readHdr addr).magic ≠ MAGIC_NUMBER →
      MEM_validateBlock al (some addr) = -ENOENT) ∧
    ((al.mem.readHdr addr).magic = MAGIC_NUMBER →
      (al.mem.readHdr addr).canary ≠ CANARY_VALUE →
      MEM_validateBlock al (some addr) = -EPROTO) := by
  exact ⟨fun hm => validate_of_structOk_magic_ne al addr hs hm,
    fun hm hc => validate_of_structOk_canary_ne al addr hs hm hc⟩

/-- C2 witness: `C2_magic_error_kind` applied to the concrete corrupted
states. -/
theorem C2_witness :
    MEM_validateBlock corruptMagicState (some 1000104) = -ENOENT ∧
    MEM_validateBlock corruptCanaryState (some 1000104) = -EPROTO :=
  ⟨(C2_magic_error_kind corruptMagicState 1000104 (by decide)).1 (by decide),
   (C2_magic_error_kind corruptCanaryState 1000104 (by decide)).2 (by decide) (by decide)⟩

/-- C3 counterexample: the map-path allocation of MMAP_THRESHOLD + 1
bytes on the fresh allocator succeeds (payload 2000088, map entry
recorded), yet the block header at the base of the mapped region has
`marked = 0` at the moment the allocation returns: MEM_mapAlloc's
`marked = 1` (line 1947) is overwritten by MEM_allocatorMalloc's header
re-initialization (line 2654). -/
theorem C3_counterexample :
    allocOverThreshold.1 = Int.ofNat 2000088 ∧
    allocOverThreshold.2.mmap_list = [{ addr := 2000000, size := 135168, node := 1000192 }] ∧
    (allocOverThreshold.2.mem.readHdr 2000000).marked = 0 := by
  refine ⟨by decide, by decide, by decide⟩

/-- C3 (amended): for every map-path allocation (size strictly above
MMAP_THRESHOLD) that returns a payload pointer, the block header at the
base of the mapped region has its `marked` flag equal to 0 when the
allocation returns (MEM_mapAlloc transiently writes 1, but
MEM_allocatorMalloc re-initializes the header with `marked = 0` before
returning). -/
theorem C3_map_marked_zero (fuel : Nat) (al : MemAllocator) (size : Nat)
    (file : String) (line : Nat) (var : String) (strategy : Strategy)
    (hsz : MMAP_THRESHOLD < size)
    (hp : 0 < (MEM_allocatorMalloc (fuel + 1) al size file line var strategy).1) :
    ((MEM_allocatorMalloc (fuel + 1) al size file line var strategy).2.mem.readHdr
      ((MEM_allocatorMalloc (fuel + 1) al size file line var strategy).1.toNat
        - sizeofBlockHeader)).marked = 0 := by
  have hsz0 : ¬ size = 0 := by
    have : 0 < MMAP_THRESHOLD := by decide
    omega
  unfold MEM_allocatorMalloc at hp ⊢
  rw [if_neg hsz0, if_pos hsz] at hp ⊢
  rcases hM : MEM_mapAlloc
      (fun a => MEM_allocatorMalloc fuel a sizeofMmapT "libmemalloc.c" 1920 "mmap_meta"
        Strategy.FIRST_FIT)
      al (ALIGN size + sizeofBlockHeader + sizeofWord) with ⟨raw, al1⟩
  rw [hM] at hp
  dsimp only at hp ⊢
  by_cases hraw : raw = 0
  · rw [if_pos hraw] at hp
    dsimp only at hp
    exact absurd hp (by decide)
  · rw [if_neg hraw] at hp ⊢
    dsimp only at hp ⊢
    have htn : (Int.ofNat (raw.toNat + sizeofBlockHeader)).toNat - sizeofBlockHeader
        = raw.toNat := by
      have hco : Int.ofNat (raw.toNat + sizeofBlockHeader)
          = ((raw.toNat + sizeofBlockHeader : Nat) : Int) := rfl
      rw [hco]
      omega
    rw [htn]
    rw [Memory.readHdr_updHdr_same, Memory.readHdr_writeWord, Memory.readHdr_updHdr_same]

/-- C3 witness: `C3_map_marked_zero` at the concrete over-threshold
allocation on the initialized allocator. -/
theorem C3_witness :
    ((MEM_allocatorMalloc 5 initState (MMAP_THRESHOLD + 1) "test.c" 3 "y"
        Strategy.FIRST_FIT).2.mem.readHdr
      ((MEM_allocatorMalloc 5 initState (MMAP_THRESHOLD + 1) "test.c" 3 "y"
          Strategy.FIRST_FIT).1.toNat - sizeofBlockHeader)).marked = 0 :=
  C3_map_marked_zero 4 initState (MMAP_THRESHOLD + 1) "test.c" 3 "y" Strategy.FIRST_FIT
    (by decide) (by decide)

/-- C4 (code bug per the spec's normative choice): after a free that
triggers a successful tail heap shrink, the source sets `last_allocated`
to the heap base cast as a block (line 3061) — a non-null cursor that
points into the metadata region at the heap base and fails block
validation — whereas the spec requires null.  Evaluated at the concrete
failing input: init; alloc 100 bytes first-fit; free it. -/
theorem C4_shrink_cursor :
    free100.1 = EXIT_SUCCESS ∧
    free100.2.last_allocated = some free100.2.heap_start ∧
    free100.2.heap_start = 1000000 ∧
    free100.2.heap_start < free100.2.heap_start + free100.2.metadata_size ∧
    MEM_validateBlock free100.2 (some 1000000) = -ENOENT := by
  refine ⟨by decide, by decide, by decide, by decide, by decide⟩

/-- C9: for every valid allocated heap block and every requested size n
that is non-zero and no larger than the block's current payload
(`size - sizeof(header) - word`), realloc returns the same payload
pointer and the allocator state is completely unchanged — no new
allocation, no copy event, and no free take place.  In particular
realloc at exactly the current payload size returns the pointer itself. -/
theorem C9_realloc_noop (fuel : Nat) (al : MemAllocator) (B : Nat) (n : Nat)
    (file : String) (line : Nat) (var : String) (strategy : Strategy)
    (hv : ValidHeapBlockFacts al B)
    (hn0 : n ≠ 0)
    (hn : n ≤ (al.mem.readHdr B).size - sizeofBlockHeader - sizeofWord) :
    MEM_allocatorRealloc fuel al (Int.ofNat (B + sizeofBlockHeader)) n file line var strategy
      = (Int.ofNat (B + sizeofBlockHeader), al) := by
  unfold MEM_allocatorRealloc
  rw [if_neg hn0]
  have hptr : ¬ Int.ofNat (B + sizeofBlockHeader) = 0 := by
    intro h
    have h2 : B + sizeofBlockHeader = 0 := congrArg Int.toNat h
    have h3 : (0 : Nat) < sizeofBlockHeader := by decide
    omega
  rw [if_neg hptr]
  have hBeq : (Int.ofNat (B + sizeofBlockHeader) - Int.ofNat sizeofBlockHeader).toNat = B := by
    have h1 : Int.ofNat (B + sizeofBlockHeader) = ((B + sizeofBlockHeader : Nat) : Int) := rfl
    have h2 : Int.ofNat sizeofBlockHeader = ((sizeofBlockHeader : Nat) : Int) := rfl
    rw [h1, h2]
    omega
  dsimp only
  rw [hBeq]
  have hval : MEM_validateBlock al (some B) = EXIT_SUCCESS := validate_of_validFacts al B hv
  rw [hval]
  rw [if_neg (by simp [EXIT_SUCCESS])]
  rw [if_pos hn]

/-- C9 witness: reallocating the concrete 100-byte allocation (block at
1000104, total size 200, payload 104) to exactly its payload size
returns the same pointer with the state untouched. -/
theorem C9_witness :
    MEM_allocatorRealloc 5 alloc100.2 (Int.ofNat (1000104 + sizeofBlockHeader)) 104
      "test.c" 9 "w" Strategy.FIRST_FIT
      = (Int.ofNat (1000104 + sizeofBlockHeader), alloc100.2) :=
  C9_realloc_noop 5 alloc100.2 1000104 104 "test.c" 9 "w" Strategy.FIRST_FIT
    (by decide) (by decide) (by decide)

/-! ## Behaviour lemmas for free-list surgery and coalescing -/

theorem getD_set_self (l : List (Option Nat)) (i : Nat) (v : Option Nat) (h : i < l.length) :
    (l.set i v).getD i none = v := by
  rw [List.getD_eq_getElem?_getD, List.getElem?_set_self']
  simp [List.getElem?_eq_getElem h]

theorem getD_set_ne (l : List (Option Nat)) (i j : Nat) (v : Option Nat) (h : i ≠ j) :
    (l.set i v).getD j none = l.getD j none := by
  rw [List.getD_eq_getElem?_getD, List.getElem?_set_ne h, ← List.getD_eq_getElem?_getD]

/-- The address arithmetic of `ptr - sizeof(block_header_t)` recovering
the header address from a payload pointer. -/
theorem payloadPtr_block (B : Nat) :
    (Int.ofNat (B + sizeofBlockHeader) - Int.ofNat sizeofBlockHeader).toNat = B := by
  have h1 : Int.ofNat (B + sizeofBlockHeader) = ((B + sizeofBlockHeader : Nat) : Int) := rfl
  have h2 : Int.ofNat sizeofBlockHeader = ((sizeofBlockHeader : Nat) : Int) := rfl
  rw [h1, h2]
  omega

theorem payloadPtr_ne_zero (B : Nat) : ¬ Int.ofNat (B + sizeofBlockHeader) = 0 := by
  intro h
  have h2 : B + sizeofBlockHeader = 0 := congrArg Int.toNat h
  have h3 : (0 : Nat) < sizeofBlockHeader := by decide
  omega

theorem MEM_getSizeClass_nonneg (al : MemAllocator) (sz : Nat) (h : sz ≠ 0) :
    ¬ MEM_getSizeClass al sz < 0 := by
  unfold MEM_getSizeClass
  rw [if_neg h]
  simp only [not_lt]
  split <;> exact Int.ofNat_nonneg _

theorem MEM_getSizeClass_state_congr (al al' : MemAllocator) (sz : Nat)
    (h : al'.num_size_classes = al.num_size_classes) :
    MEM_getSizeClass al' sz = MEM_getSizeClass al sz := by
  unfold MEM_getSizeClass
  rw [h]

/-- MEM_insertFreeBlock into an empty bin: the block's free-list links
are cleared and it becomes the bin head. -/
theorem MEM_insertFreeBlock_empty_bin (al : MemAllocator) (B sz : Nat)
    (hsz : (al.mem.readHdr B).size = sz)
    (hsznz : sz ≠ 0)
    (hbin : al.free_lists.getD (MEM_getSizeClass al sz).toNat none = none) :
    MEM_insertFreeBlock al B = (EXIT_SUCCESS,
      { al with
        mem := al.mem.updHdr B (fun h => { h with fl_next := none, fl_prev := none }),
        free_lists := al.free_lists.set (MEM_getSizeClass al sz).toNat (some B) }) := by
  unfold MEM_insertFreeBlock
  rw [hsz]
  rw [if_neg (MEM_getSizeClass_nonneg al _ hsznz)]
  dsimp only
  rw [hbin]

/-- MEM_removeFreeBlock of a block that is the sole member of its bin
(no free-list neighbours): the bin head is reset to null and the block's
links are cleared. -/
theorem MEM_removeFreeBlock_solo (al : MemAllocator) (B sz : Nat)
    (hsz : (al.mem.readHdr B).size = sz)
    (hsznz : sz ≠ 0)
    (hflp : (al.mem.readHdr B).fl_prev = none)
    (hfln : (al.mem.readHdr B).fl_next = none) :
    MEM_removeFreeBlock al B = (EXIT_SUCCESS,
      { al with
        mem := al.mem.updHdr B (fun h => { h with fl_next := none, fl_prev := none }),
        free_lists := al.free_lists.set (MEM_getSizeClass al sz).toNat none }) := by
  unfold MEM_removeFreeBlock
  rw [hsz]
  rw [if_neg (MEM_getSizeClass_nonneg al _ hsznz)]
  dsimp only
  rw [hflp, hfln]
  try dsimp only
  try rw [hfln]

/-- MEM_mergeBlocks of a block with no mergeable neighbours (its end is
too close to `heap_end` for a next-header to fit, and it has no `prev`
link): the merge reduces to clearing the block's links and reinserting
it into its bin. -/
theorem MEM_mergeBlocks_noneighbors (al : MemAllocator) (B : Nat)
    (hval : MEM_validateBlock al (some B) = EXIT_SUCCESS)
    (hend : al.heap_end < B + (al.mem.readHdr B).size + sizeofBlockHeader)
    (hprev : (al.mem.readHdr B).prev = none) :
    MEM_mergeBlocks al B = MEM_insertFreeBlock
      { al with mem := al.mem.updHdr B (fun h => { h with fl_next := none, fl_prev := none }) }
      B := by
  unfold MEM_mergeBlocks
  rw [hval]
  rw [if_neg (by simp [EXIT_SUCCESS])]
  dsimp only
  have hno : ¬ (B + (al.mem.readHdr B).size + sizeofBlockHeader ≤ al.heap_end) := by omega
  rw [if_neg hno]
  try dsimp only
  rw [hprev]
  rw [if_neg (by simp : ¬ (EXIT_SUCCESS ≠ EXIT_SUCCESS))]
  try dsimp only
  try rw [if_neg (by simp : ¬ (EXIT_SUCCESS ≠ EXIT_SUCCESS))]
  try rfl

/-- Header updates that do not touch size, magic or canary (nor the tail
word) preserve the validity facts of a block. -/
theorem validFacts_updHdr (al : MemAllocator) (B : Nat) (f : BlockHeader → BlockHeader)
    (hv : ValidHeapBlockFacts al B)
    (hs : ∀ h, (f h).size = h.size)
    (hm : ∀ h, (f h).magic = h.magic)
    (hc : ∀ h, (f h).canary = h.canary) :
    ValidHeapBlockFacts { al with mem := al.mem.updHdr B f } B := by
  unfold ValidHeapBlockFacts StructOkHeap at hv ⊢
  dsimp only at hv ⊢
  rw [Memory.readHdr_updHdr_same, Memory.readWord_updHdr, hs, hm, hc]
  exact hv

/-- The header update performed by MEM_allocatorFree when marking a
block free (free = 1, marked = 0, diagnostics recorded). -/
def freeDiag (file : String) (line : Nat) (var : String) : BlockHeader → BlockHeader :=
  fun h => { h with free := 1, marked := 0, file := file, line := line, var_name := var }

/-- Clearing a block's free-list links. -/
def flClear : BlockHeader → BlockHeader :=
  fun h => { h with fl_next := none, fl_prev := none }

/-- Symbolic run of MEM_allocatorFree on a heap block that ends exactly
at the current break with a matching recorded lease and no mergeable
neighbours (its bin being empty): the block is marked free, coalescing
reduces to reinsertion, the shrink branch removes it again and moves the
break back by exactly the lease; if `sbrk` fails the block is reinserted
and the call still succeeds. -/
theorem C5_run (fuel : Nat) (al : MemAllocator) (B L sz : Nat)
    (file : String) (line : Nat) (var : String)
    (hsz : (al.mem.readHdr B).size = sz)
    (hv : ValidHeapBlockFacts al B)
    (hfree : (al.mem.readHdr B).free = 0)
    (hprev : (al.mem.readHdr B).prev = none)
    (hmmap : al.mmap_list = [])
    (hend : B + sz = al.heap_end)
    (hbrk : al.brk = al.heap_end)
    (hLs : al.last_brk_start = some L)
    (hLe : al.last_brk_end = some al.heap_end)
    (hlease_pos : L < al.heap_end)
    (hlease_le : al.heap_end - L ≤ sz)
    (hbin : al.free_lists.getD (MEM_getSizeClass al sz).toNat none = none)
    (hbinlen : (MEM_getSizeClass al sz).toNat < al.free_lists.length) :
    MEM_allocatorFree (fuel + 1) al (Int.ofNat (B + sizeofBlockHeader)) file line var
      = (EXIT_SUCCESS,
        if al.sbrk_ok then
          { al with
            mem := (((al.mem.updHdr B (freeDiag file line var)).updHdr B
                flClear).updHdr B flClear).updHdr B flClear,
            free_lists := (al.free_lists.set (MEM_getSizeClass al sz).toNat (some B)).set
              (MEM_getSizeClass al sz).toNat none,
            heap_end := al.heap_end - (al.heap_end - L),
            brk := (Int.ofNat al.brk + -(Int.ofNat (al.heap_end - L))).toNat,
            last_brk_start := none,
            last_brk_end := none,
            last_allocated := some al.heap_start }
        else
          { al with
            mem := ((((al.mem.updHdr B (freeDiag file line var)).updHdr B
                flClear).updHdr B flClear).updHdr B flClear).updHdr B flClear,
            free_lists := ((al.free_lists.set (MEM_getSizeClass al sz).toNat (some B)).set
              (MEM_getSizeClass al sz).toNat none).set
              (MEM_getSizeClass al sz).toNat (some B) }) := by
  have hszword : sizeofBlockHeader + sizeofWord ≤ sz := by
    have := hv.1.2.2.2.2.1
    omega
  have hsznz : sz ≠ 0 := by omega
  unfold MEM_allocatorFree
  try dsimp only
  rw [if_neg (payloadPtr_ne_zero B), payloadPtr_block]
  try dsimp only
  have hfind : List.find? (fun m => m.addr == B) al.mmap_list = none := by
    rw [hmmap]
    rfl
  rw [hfind]
  try dsimp only
  have hval0 : MEM_validateBlock al (some B) = EXIT_SUCCESS := validate_of_validFacts al B hv
  rw [hval0, if_neg (by simp : ¬ (EXIT_SUCCESS ≠ EXIT_SUCCESS)), hfree]
  rw [if_neg (by simp : ¬ ((0 : Nat) ≠ 0))]
  try dsimp only
  set diagL : BlockHeader → BlockHeader := fun h => { h with free := 1, marked := 0, file := file, line := line, var_name := var } with hdiag
  set al1 : MemAllocator := { al with mem := al.mem.updHdr B diagL } with hal1
  have hv1 : ValidHeapBlockFacts al1 B := validFacts_updHdr al B diagL hv (fun h => rfl) (fun h => rfl) (fun h => rfl)
  have hval1 : MEM_validateBlock al1 (some B) = EXIT_SUCCESS := validate_of_validFacts al1 B hv1
  have hread1 : al1.mem.readHdr B = diagL (al.mem.readHdr B) := Memory.readHdr_updHdr_same al.mem B diagL
  have hsz1 : (al1.mem.readHdr B).size = sz := by rw [hread1]; exact hsz
  have hprev1 : (al1.mem.readHdr B).prev = none := by rw [hread1]; exact hprev
  have hend1 : al1.heap_end < B + (al1.mem.readHdr B).size + sizeofBlockHeader := by
    rw [hsz1]
    show al.heap_end < B + sz + sizeofBlockHeader
    have h88 : 0 < sizeofBlockHeader := by decide
    omega
  have hmerge := MEM_mergeBlocks_noneighbors al1 B hval1 hend1 hprev1
  rw [hmerge]
  set flL : BlockHeader → BlockHeader := fun h => { h with fl_next := none, fl_prev := none } with hflL
  set al1x : MemAllocator := { al1 with mem := al1.mem.updHdr B flL } with hal1x
  have hread1x : al1x.mem.readHdr B = flL (al1.mem.readHdr B) := Memory.readHdr_updHdr_same al1.mem B flL
  have hsz1x : (al1x.mem.readHdr B).size = sz := by rw [hread1x]; exact hsz1
  have hnum1x : al1x.num_size_classes = al.num_size_classes := rfl
  have hbin1x : al1x.free_lists.getD (MEM_getSizeClass al1x sz).toNat none = none := by
    rw [MEM_getSizeClass_state_congr al al1x sz hnum1x]
    exact hbin
  have hins := MEM_insertFreeBlock_empty_bin al1x B sz hsz1x hsznz hbin1x
  rw [hins]
  try dsimp only
  rw [if_neg (by simp : Not (EXIT_SUCCESS ≠ EXIT_SUCCESS))]
  set memD : Memory := ((al.mem.updHdr B diagL).updHdr B flL).updHdr B (fun h => { h with fl_next := none, fl_prev := none }) with hmemD
  have hszM : (memD.readHdr B).size = sz := by
    rw [hmemD, Memory.readHdr_updHdr_same, Memory.readHdr_updHdr_same, Memory.readHdr_updHdr_same]
    exact hsz
  rw [if_pos (show B + (memD.readHdr B).size = al.heap_end from by rw [hszM]; exact hend)]
  rw [if_pos (show al.brk = al.heap_end ∧ al.last_brk_start ≠ none ∧ al.last_brk_end ≠ none ∧ al.last_brk_end = some al.heap_end from ⟨hbrk, by rw [hLs]; simp, by rw [hLe]; simp, hLe⟩)]
  have hleaseE : al.last_brk_end.getD 0 - al.last_brk_start.getD 0 = al.heap_end - L := by
    rw [hLs, hLe]
    rfl
  rw [hleaseE]
  rw [if_pos (show 0 < al.heap_end - L ∧ al.heap_end - L ≤ (memD.readHdr B).size from by rw [hszM]; exact ⟨by omega, hlease_le⟩)]
  set al2 : MemAllocator := { al with free_lists := al.free_lists.set (MEM_getSizeClass al1x sz).toNat (some B), mem := memD } with hal2
  have hrdD : memD.readHdr B = (fun h => { h with fl_next := none, fl_prev := none }) (((al.mem.updHdr B diagL).updHdr B flL).readHdr B) := by
    rw [hmemD]
    exact Memory.readHdr_updHdr_same _ _ _
  have hsz2 : (al2.mem.readHdr B).size = sz := hszM
  have hflp2 : (al2.mem.readHdr B).fl_prev = none := by
    show (memD.readHdr B).fl_prev = none
    rw [hrdD]
  have hfln2 : (al2.mem.readHdr B).fl_next = none := by
    show (memD.readHdr B).fl_next = none
    rw [hrdD]
  have hrem := MEM_removeFreeBlock_solo al2 B sz hsz2 hsznz hflp2 hfln2
  rw [hrem]
  try dsimp only
  rw [if_neg (by simp : Not (EXIT_SUCCESS ≠ EXIT_SUCCESS))]
  set al3 : MemAllocator := { al with free_lists := (al.free_lists.set (MEM_getSizeClass al1x sz).toNat (some B)).set (MEM_getSizeClass al2 sz).toNat none, mem := memD.updHdr B (fun h => { h with fl_next := none, fl_prev := none }) } with hal3
  unfold MEM_sbrk
  try dsimp only
  have e_ok : al3.sbrk_ok = al.sbrk_ok := rfl
  have e_brk : al3.brk = al.brk := rfl
  rw [e_ok, e_brk]
  have hga : MEM_getSizeClass al1x sz = MEM_getSizeClass al sz := MEM_getSizeClass_state_congr al al1x sz rfl
  have hgb : MEM_getSizeClass al2 sz = MEM_getSizeClass al sz := MEM_getSizeClass_state_congr al al2 sz rfl
  have hgc : MEM_getSizeClass al3 sz = MEM_getSizeClass al sz := MEM_getSizeClass_state_congr al al3 sz rfl
  cases hsbv : al.sbrk_ok
  case false =>
    simp only [Bool.false_eq_true, if_false]
    try dsimp only
    rw [if_neg (by decide : Not ((0 : Int) ≤ -ENOMEM))]
    have hsz3 : (al3.mem.readHdr B).size = sz := by
      show ((memD.updHdr B (fun h => { h with fl_next := none, fl_prev := none })).readHdr B).size = sz
      rw [Memory.readHdr_updHdr_same]
      exact hszM
    have hbin3 : al3.free_lists.getD (MEM_getSizeClass al3 sz).toNat none = none := by
      show ((al.free_lists.set (MEM_getSizeClass al1x sz).toNat (some B)).set (MEM_getSizeClass al2 sz).toNat none).getD (MEM_getSizeClass al3 sz).toNat none = none
      rw [hga, hgb, hgc]
      exact getD_set_self _ _ _ (by rw [List.length_set]; exact hbinlen)
    have hins3 := MEM_insertFreeBlock_empty_bin al3 B sz hsz3 hsznz hbin3
    rw [hins3]
    rw [show al3.sbrk_ok = false from hsbv]
    rfl
  case true =>
    simp only [if_true]
    try dsimp only
    rw [if_pos (show (0 : Int) ≤ Int.ofNat al.brk from Int.ofNat_nonneg al.brk)]
    try rw [show al3.sbrk_ok = true from hsbv]
    rfl

/-- C5: for every free of a heap block whose coalesced result ends
exactly at the current break, with the break equal to `heap_end` and
matching the recorded lease (`last_brk_end = heap_end`, block size at
least the lease), the shrink moves the break back by exactly the lease
amount — never a partial amount — so the new break and `heap_end` both
equal the lease start `L`; and if the break movement fails, the block is
reinserted into its bin (it becomes the bin head again) and the free
call still returns success with the heap extent unchanged. -/
theorem C5_shrink_exact_lease (fuel : Nat) (al : MemAllocator) (B L sz : Nat)
    (file : String) (line : Nat) (var : String)
    (hsz : (al.mem.readHdr B).size = sz)
    (hv : ValidHeapBlockFacts al B)
    (hfree : (al.mem.readHdr B).free = 0)
    (hprev : (al.mem.readHdr B).prev = none)
    (hmmap : al.mmap_list = [])
    (hend : B + sz = al.heap_end)
    (hbrk : al.brk = al.heap_end)
    (hLs : al.last_brk_start = some L)
    (hLe : al.last_brk_end = some al.heap_end)
    (hlease_pos : L < al.heap_end)
    (hlease_le : al.heap_end - L ≤ sz)
    (hbin : al.free_lists.getD (MEM_getSizeClass al sz).toNat none = none)
    (hbinlen : (MEM_getSizeClass al sz).toNat < al.free_lists.length) :
    (MEM_allocatorFree (fuel + 1) al (Int.ofNat (B + sizeofBlockHeader)) file line var).1
        = EXIT_SUCCESS ∧
    (al.sbrk_ok = true →
      (MEM_allocatorFree (fuel + 1) al (Int.ofNat (B + sizeofBlockHeader)) file line var).2.heap_end
          = L ∧
      (MEM_allocatorFree (fuel + 1) al (Int.ofNat (B + sizeofBlockHeader)) file line var).2.brk
          = L) ∧
    (al.sbrk_ok = false →
      (MEM_allocatorFree (fuel + 1) al (Int.ofNat (B + sizeofBlockHeader)) file line var).2.heap_end
          = al.heap_end ∧
      (MEM_allocatorFree (fuel + 1) al (Int.ofNat (B + sizeofBlockHeader)) file line
          var).2.free_lists.getD (MEM_getSizeClass al sz).toNat none = some B) := by
  have hrun := C5_run fuel al B L sz file line var hsz hv hfree hprev hmmap hend hbrk hLs hLe
    hlease_pos hlease_le hbin hbinlen
  rw [hrun]
  refine ⟨rfl, ?_, ?_⟩
  · intro hsb
    rw [hsb]
    simp only [if_true]
    constructor
    · show al.heap_end - (al.heap_end - L) = L
      omega
    · show (Int.ofNat al.brk + -(Int.ofNat (al.heap_end - L))).toNat = L
      have hco : Int.ofNat al.brk = ((al.brk : Nat) : Int) := rfl
      have hco2 : Int.ofNat (al.heap_end - L) = ((al.heap_end - L : Nat) : Int) := rfl
      rw [hco, hco2]
      omega
  · intro hsb
    rw [hsb]
    rw [if_neg (by simp : ¬ (false = true))]
    constructor
    · rfl
    · show (((al.free_lists.set (MEM_getSizeClass al sz).toNat (some B)).set
        (MEM_getSizeClass al sz).toNat none).set
        (MEM_getSizeClass al sz).toNat (some B)).getD (MEM_getSizeClass al sz).toNat none
          = some B
      exact getD_set_self _ _ _ (by rw [List.length_set, List.length_set]; exact hbinlen)

/-- C5 witness: freeing the concrete 100-byte allocation of `alloc100`
(block at 1000104, size 200, lease 1000104..1000304 ending at the
break). -/
theorem C5_witness :
    (MEM_allocatorFree (4 + 1) alloc100.2 (Int.ofNat (1000104 + sizeofBlockHeader))
        "test.c" 2 "x").1 = EXIT_SUCCESS ∧
    (alloc100.2.sbrk_ok = true →
      (MEM_allocatorFree (4 + 1) alloc100.2 (Int.ofNat (1000104 + sizeofBlockHeader))
          "test.c" 2 "x").2.heap_end = 1000104 ∧
      (MEM_allocatorFree (4 + 1) alloc100.2 (Int.ofNat (1000104 + sizeofBlockHeader))
          "test.c" 2 "x").2.brk = 1000104) ∧
    (alloc100.2.sbrk_ok = false →
      (MEM_allocatorFree (4 + 1) alloc100.2 (Int.ofNat (1000104 + sizeofBlockHeader))
          "test.c" 2 "x").2.heap_end = alloc100.2.heap_end ∧
      (MEM_allocatorFree (4 + 1) alloc100.2 (Int.ofNat (1000104 + sizeofBlockHeader))
          "test.c" 2 "x").2.free_lists.getD
          (MEM_getSizeClass alloc100.2 200).toNat none = some 1000104) :=
  C5_shrink_exact_lease 4 alloc100.2 1000104 1000104 200 "test.c" 2 "x"
    (by decide) (by decide) (by decide) (by decide) (by decide) (by decide) (by decide)
    (by decide) (by decide) (by decide) (by decide) (by decide) (by decide)

/-! ## C6: grow-and-retry of the heap path -/

/-- The allocator state after MEM_growUserHeap succeeds with increment
`T` (lines 1817-1854, `sbrk` working): the break and `heap_end` advance
by `T`, the new region is zeroed, a bare header (size/free/marked) is
seeded at the old break and the lease is recorded. -/
def c6Grown (al : MemAllocator) (T : Nat) : MemAllocator :=
  { al with
    mem := (al.mem.memsetZero al.brk T).updHdr al.brk
      (fun h => { h with size := T, free := 1, marked := 0 }),
    heap_end := al.brk + T,
    brk := al.brk + T,
    last_brk_start := some al.brk,
    last_brk_end := some (al.brk + T) }

/-- The allocator state after the seeding phase of mallocGrowRetry
(lines 2688-2706) applied to the grown state `alG`: a single fresh free
block of size `T` is written at the old break `ob` (magic, header
canary, tail canary, `free = 1`, no neighbours) and inserted at the
head of its (empty) bin. -/
def c6SeedOf (alG : MemAllocator) (ob T : Nat) : MemAllocator :=
  let m1 := alG.mem.updHdr ob
    (fun h => { h with magic := MAGIC_NUMBER, size := T, free := 1
                     , marked := 0, next := none, prev := none
                     , canary := CANARY_VALUE })
  let m2 := m1.writeWord (ob + T - sizeofWord) CANARY_VALUE
  let m3 := m2.updHdr ob (fun h => { h with fl_next := none, fl_prev := none })
  let m4 := m3.updHdr ob (fun h => { h with fl_next := none, fl_prev := none })
  { alG with
    mem := m4,
    last_brk_start := some ob,
    last_brk_end := some (ob + T),
    free_lists := alG.free_lists.set (MEM_getSizeClass alG T).toNat (some ob) }

/-- mallocGrowRetry through the grow-and-seed phase: when the grow
succeeds (returning the old break) and the target bin of the grown
state is empty, the retry reduces to the placement search on the
seeded state. -/
theorem mallocGrowRetry_seed (alG al1 : MemAllocator) (T size : Nat)
    (file : String) (line : Nat) (var : String) (strategy : Strategy) (fuel : Nat)
    (hTnz : T ≠ 0)
    (hgrow : MEM_growUserHeap al1 (Int.ofNat T) = (Int.ofNat al1.brk, alG))
    (hbinG : alG.free_lists.getD (MEM_getSizeClass alG T).toNat none = none) :
    mallocGrowRetry al1 T size file line var strategy fuel
      = (match findBlock strategy (c6SeedOf alG al1.brk T) T fuel with
         | (ret1, blk1, al5) => mallocAfterFind al5 ret1 blk1 size file line var strategy) := by
  have hnn : ¬ Int.ofNat al1.brk < 0 := Int.not_lt.mpr (Int.ofNat_nonneg _)
  have hred : (Int.ofNat al1.brk).toNat = al1.brk := rfl
  unfold mallocGrowRetry
  rw [hgrow]
  try dsimp only
  rw [if_neg hnn]
  try dsimp only
  rw [hred]
  set alP : MemAllocator :=
    { heap_start := alG.heap_start, heap_end := alG.heap_end,
      metadata_size := alG.metadata_size, num_size_classes := alG.num_size_classes,
      free_lists := alG.free_lists, last_allocated := alG.last_allocated,
      top_chunk := alG.top_chunk, last_brk_start := some al1.brk,
      last_brk_end := some (al1.brk + T), mmap_list := alG.mmap_list,
      mem := ((alG.mem.updHdr al1.brk
          (fun h => { h with magic := MAGIC_NUMBER, size := T, free := 1
                           , marked := 0, next := none, prev := none
                           , canary := CANARY_VALUE })).writeWord
          (al1.brk + T - sizeofWord) CANARY_VALUE).updHdr al1.brk
          (fun h => { h with fl_next := none, fl_prev := none }),
      brk := alG.brk, sbrk_ok := alG.sbrk_ok, mmap_ok := alG.mmap_ok,
      munmap_ok := alG.munmap_ok, next_map_base := alG.next_map_base,
      page_size := alG.page_size } with halP
  have hszP : (alP.mem.readHdr al1.brk).size = T := by
    rw [halP]
    rw [Memory.readHdr_updHdr_same]
    dsimp only
    rw [Memory.readHdr_writeWord, Memory.readHdr_updHdr_same]
  have hbinP : alP.free_lists.getD (MEM_getSizeClass alP T).toNat none = none := by
    rw [halP]
    exact hbinG
  have hins := MEM_insertFreeBlock_empty_bin alP al1.brk T hszP hTnz hbinP
  rw [hins]
  try dsimp only
  rw [if_neg (by simp : Not (EXIT_SUCCESS ≠ EXIT_SUCCESS))]
  try dsimp only
  rw [halP]
  rfl

/-- Symbolic run of the heap path of MEM_allocatorMalloc when the first
placement search reports out-of-space, the target bin is empty, `sbrk`
works, and the retried placement search fails again: the result is
out-of-memory with the grown-and-seeded state. -/
theorem C6_run (fuel : Nat) (al : MemAllocator) (size T : Nat)
    (file : String) (line : Nat) (var : String) (strategy : Strategy)
    (b0 b1 : Option Nat)
    (hT : T = ALIGN size + sizeofBlockHeader + sizeofWord)
    (hsz0 : size ≠ 0)
    (hszle : ¬ MMAP_THRESHOLD < size)
    (hfind1 : findBlock strategy al T fuel = (-ENOMEM, b0, al))
    (hsb : al.sbrk_ok = true)
    (hbin : al.free_lists.getD (MEM_getSizeClass al T).toNat none = none)
    (hfind2 : findBlock strategy (c6SeedOf (c6Grown al T) al.brk T) T fuel
        = (-ENOMEM, b1, c6SeedOf (c6Grown al T) al.brk T)) :
    MEM_allocatorMalloc (fuel + 1) al size file line var strategy
      = (-ENOMEM, c6SeedOf (c6Grown al T) al.brk T) := by
  have hTnz : T ≠ 0 := by
    have h88 : (0 : Nat) < sizeofBlockHeader := by decide
    omega
  have hnn : ¬ Int.ofNat al.brk < 0 := Int.not_lt.mpr (Int.ofNat_nonneg _)
  have hgrow : MEM_growUserHeap al (Int.ofNat T) = (Int.ofNat al.brk, c6Grown al T) := by
    unfold MEM_growUserHeap MEM_sbrk
    rw [if_pos hsb]
    try dsimp only
    rw [if_neg hnn]
    rfl
  have hbinG : (c6Grown al T).free_lists.getD
      (MEM_getSizeClass (c6Grown al T) T).toNat none = none := hbin
  have hseed := mallocGrowRetry_seed (c6Grown al T) al T size file line var strategy fuel
    hTnz hgrow hbinG
  unfold MEM_allocatorMalloc
  try dsimp only
  rw [if_neg hsz0, if_neg hszle, ← hT, hfind1]
  try dsimp only
  rw [if_pos rfl]
  rw [hseed]
  rw [hfind2]
  try dsimp only
  unfold mallocAfterFind
  rw [if_pos (show (-ENOMEM : Int) ≠ EXIT_SUCCESS from by decide)]
  rfl

/-- The header the seeding phase leaves at the old break. -/
theorem c6SeedOf_readHdr (alG : MemAllocator) (ob T : Nat) :
    (c6SeedOf alG ob T).mem.readHdr ob =
      { alG.mem.readHdr ob with
        magic := MAGIC_NUMBER, size := T, free := 1, marked := 0
        , next := none, prev := none, canary := CANARY_VALUE
        , fl_next := none, fl_prev := none } := by
  unfold c6SeedOf
  try dsimp only
  rw [Memory.readHdr_updHdr_same]
  try dsimp only
  rw [Memory.readHdr_updHdr_same]
  try dsimp only
  rw [Memory.readHdr_writeWord, Memory.readHdr_updHdr_same]

/-- The tail canary the seeding phase writes at the end of the lease. -/
theorem c6SeedOf_readWord (alG : MemAllocator) (ob T : Nat) :
    (c6SeedOf alG ob T).mem.readWord (ob + T - sizeofWord) = CANARY_VALUE := by
  unfold c6SeedOf
  try dsimp only
  rw [Memory.readWord_updHdr, Memory.readWord_updHdr, Memory.readWord_writeWord_same]

/-- The seeding phase touches no header other than the one at the old
break. -/
theorem c6SeedOf_readHdr_ne (alG : MemAllocator) (ob T a : Nat) (h : a ≠ ob) :
    (c6SeedOf alG ob T).mem.readHdr a = alG.mem.readHdr a := by
  have hob : ob ≠ a := Ne.symm h
  unfold c6SeedOf
  try dsimp only
  rw [Memory.readHdr_updHdr_ne _ _ _ _ hob, Memory.readHdr_updHdr_ne _ _ _ _ hob,
    Memory.readHdr_writeWord, Memory.readHdr_updHdr_ne _ _ _ _ hob]

/-- The grow phase touches no header other than the bare seed at the old
break (the grown region itself having been zeroed). -/
theorem c6Grown_readHdr_ne (al : MemAllocator) (T a : Nat) (h : a ≠ al.brk) :
    (c6Grown al T).mem.readHdr a = (al.mem.memsetZero al.brk T).readHdr a := by
  unfold c6Grown
  try dsimp only
  rw [Memory.readHdr_updHdr_ne _ _ _ _ (Ne.symm h)]

/-- C6: for every heap-path allocation whose placement search reports
out-of-space (with the break at `heap_end`, a working `sbrk`, and the
seed's target bin empty), MEM_allocatorMalloc grows the heap by exactly
the total needed size T = ALIGN(size) + sizeof(header) + word (the new
region is zeroed and the lease recorded as `heap_end .. heap_end + T`),
seeds exactly one fresh free block spanning the new lease (magic,
`free = 1`, both canaries; every other header reads as in the zeroed
grown memory), inserts it at the head of its bin, and retries the same
placement search exactly once; when that second search also fails the
call returns the out-of-memory error `-ENOMEM`. -/
theorem C6_grow_retry_once (fuel : Nat) (al : MemAllocator) (size T : Nat)
    (file : String) (line : Nat) (var : String) (strategy : Strategy)
    (b0 b1 : Option Nat)
    (hT : T = ALIGN size + sizeofBlockHeader + sizeofWord)
    (hsz0 : size ≠ 0)
    (hszle : ¬ MMAP_THRESHOLD < size)
    (hfind1 : findBlock strategy al T fuel = (-ENOMEM, b0, al))
    (hsb : al.sbrk_ok = true)
    (hbrk : al.brk = al.heap_end)
    (hbin : al.free_lists.getD (MEM_getSizeClass al T).toNat none = none)
    (hbinlen : (MEM_getSizeClass al T).toNat < al.free_lists.length)
    (hfind2 : findBlock strategy (c6SeedOf (c6Grown al T) al.brk T) T fuel
        = (-ENOMEM, b1, c6SeedOf (c6Grown al T) al.brk T)) :
    (MEM_allocatorMalloc (fuel + 1) al size file line var strategy).1 = -ENOMEM ∧
    (MEM_allocatorMalloc (fuel + 1) al size file line var strategy).2.heap_end
        = al.heap_end + T ∧
    (MEM_allocatorMalloc (fuel + 1) al size file line var strategy).2.brk
        = al.heap_end + T ∧
    (MEM_allocatorMalloc (fuel + 1) al size file line var strategy).2.last_brk_start
        = some al.heap_end ∧
    (MEM_allocatorMalloc (fuel + 1) al size file line var strategy).2.last_brk_end
        = some (al.heap_end + T) ∧
    (MEM_allocatorMalloc (fuel + 1) al size file line var strategy).2.mem.zeroes
        = (al.heap_end, T) :: al.mem.zeroes ∧
    ((MEM_allocatorMalloc (fuel + 1) al size file line var strategy).2.mem.readHdr
        al.heap_end).magic = MAGIC_NUMBER ∧
    ((MEM_allocatorMalloc (fuel + 1) al size file line var strategy).2.mem.readHdr
        al.heap_end).size = T ∧
    ((MEM_allocatorMalloc (fuel + 1) al size file line var strategy).2.mem.readHdr
        al.heap_end).free = 1 ∧
    ((MEM_allocatorMalloc (fuel + 1) al size file line var strategy).2.mem.readHdr
        al.heap_end).canary = CANARY_VALUE ∧
    (MEM_allocatorMalloc (fuel + 1) al size file line var strategy).2.mem.readWord
        (al.heap_end + T - sizeofWord) = CANARY_VALUE ∧
    (MEM_allocatorMalloc (fuel + 1) al size file line var strategy).2.free_lists.getD
        (MEM_getSizeClass al T).toNat none = some al.heap_end ∧
    (∀ a, a ≠ al.heap_end →
      (MEM_allocatorMalloc (fuel + 1) al size file line var strategy).2.mem.readHdr a
        = (al.mem.memsetZero al.heap_end T).readHdr a) := by
  have hrun := C6_run fuel al size T file line var strategy b0 b1 hT hsz0 hszle hfind1 hsb
    hbin hfind2
  rw [hrun]
  rw [← hbrk]
  refine ⟨rfl, ?_, ?_, ?_, ?_, ?_, ?_, ?_, ?_, ?_, ?_, ?_, ?_⟩
  · rfl
  · rfl
  · rfl
  · rfl
  · rfl
  · rw [c6SeedOf_readHdr]
  · rw [c6SeedOf_readHdr]
  · rw [c6SeedOf_readHdr]
  · rw [c6SeedOf_readHdr]
  · exact c6SeedOf_readWord _ _ _
  · show ((c6Grown al T).free_lists.set
        (MEM_getSizeClass (c6Grown al T) T).toNat (some al.brk)).getD
        (MEM_getSizeClass al T).toNat none = some al.brk
    have hg : MEM_getSizeClass (c6Grown al T) T = MEM_getSizeClass al T :=
      MEM_getSizeClass_state_congr al (c6Grown al T) T rfl
    rw [hg]
    exact getD_set_self _ _ _ hbinlen
  · intro a ha
    rw [c6SeedOf_readHdr_ne _ _ _ _ ha, c6Grown_readHdr_ne _ _ _ ha]

/-- An allocator whose break (and `heap_end`) sits at a misaligned
address: the block seeded after a grow then fails validation, so the
retried placement search fails again. -/
def growRetryState : MemAllocator :=
  { initState with heap_end := 1000105, brk := 1000105 }


/-- C6 witness: a concrete allocator with empty bins and a misaligned
break; the first search fails, the heap is grown and seeded, and the
retried search rejects the (misaligned) seeded block, so the allocation
surfaces out-of-memory. -/
theorem C6_witness :
    (MEM_allocatorMalloc (4 + 1) growRetryState 100 "t.c" 1 "x" Strategy.FIRST_FIT).1
        = -ENOMEM ∧
    (MEM_allocatorMalloc (4 + 1) growRetryState 100 "t.c" 1 "x"
        Strategy.FIRST_FIT).2.heap_end = growRetryState.heap_end + 200 ∧
    (MEM_allocatorMalloc (4 + 1) growRetryState 100 "t.c" 1 "x"
        Strategy.FIRST_FIT).2.brk = growRetryState.heap_end + 200 ∧
    (MEM_allocatorMalloc (4 + 1) growRetryState 100 "t.c" 1 "x"
        Strategy.FIRST_FIT).2.last_brk_start = some growRetryState.heap_end ∧
    (MEM_allocatorMalloc (4 + 1) growRetryState 100 "t.c" 1 "x"
        Strategy.FIRST_FIT).2.last_brk_end = some (growRetryState.heap_end + 200) ∧
    (MEM_allocatorMalloc (4 + 1) growRetryState 100 "t.c" 1 "x"
        Strategy.FIRST_FIT).2.mem.zeroes
        = (growRetryState.heap_end, 200) :: growRetryState.mem.zeroes ∧
    ((MEM_allocatorMalloc (4 + 1) growRetryState 100 "t.c" 1 "x"
        Strategy.FIRST_FIT).2.mem.readHdr growRetryState.heap_end).magic = MAGIC_NUMBER ∧
    ((MEM_allocatorMalloc (4 + 1) growRetryState 100 "t.c" 1 "x"
        Strategy.FIRST_FIT).2.mem.readHdr growRetryState.heap_end).size = 200 ∧
    ((MEM_allocatorMalloc (4 + 1) growRetryState 100 "t.c" 1 "x"
        Strategy.FIRST_FIT).2.mem.readHdr growRetryState.heap_end).free = 1 ∧
    ((MEM_allocatorMalloc (4 + 1) growRetryState 100 "t.c" 1 "x"
        Strategy.FIRST_FIT).2.mem.readHdr growRetryState.heap_end).canary = CANARY_VALUE ∧
    (MEM_allocatorMalloc (4 + 1) growRetryState 100 "t.c" 1 "x"
        Strategy.FIRST_FIT).2.mem.readWord (growRetryState.heap_end + 200 - sizeofWord)
        = CANARY_VALUE ∧
    (MEM_allocatorMalloc (4 + 1) growRetryState 100 "t.c" 1 "x"
        Strategy.FIRST_FIT).2.free_lists.getD
        (MEM_getSizeClass growRetryState 200).toNat none = some growRetryState.heap_end := by
  have h := C6_grow_retry_once 4 growRetryState 100 200 "t.c" 1 "x" Strategy.FIRST_FIT
    none none (by decide) (by decide) (by decide) (by decide) (by decide) (by decide)
    (by decide) (by decide) (by decide)
  exact ⟨h.1, h.2.1, h.2.2.1, h.2.2.2.1, h.2.2.2.2.1, h.2.2.2.2.2.1, h.2.2.2.2.2.2.1,
    h.2.2.2.2.2.2.2.1, h.2.2.2.2.2.2.2.2.1, h.2.2.2.2.2.2.2.2.2.1,
    h.2.2.2.2.2.2.2.2.2.2.1, h.2.2.2.2.2.2.2.2.2.2.2.1⟩

/-! ## C7: MEM_splitBlock -/

/-- If the j-th bin is empty, it stays empty after any bin is cleared. -/
theorem getD_set_none (l : List (Option Nat)) (i j : Nat)
    (h : l.getD j none = none) : (l.set i none).getD j none = none := by
  by_cases hij : i = j
  · subst hij
    rw [List.getD_eq_getElem?_getD, List.getElem?_set_self']
    cases l[i]? <;> rfl
  · rw [getD_set_ne l i j none hij]
    exact h

/-- The allocator state after MEM_splitBlock consumes the whole block
`B` of size `sz` (sole member of its bin): the block is removed from its
bin, its free flag is cleared, magic and both canaries reinstalled, and
no other header changes. -/
def c7Whole (al : MemAllocator) (B sz : Nat) : MemAllocator :=
  { al with
    mem := ((al.mem.updHdr B (fun h => { h with fl_next := none, fl_prev := none })).updHdr B
        (fun h => { h with free := 0, magic := MAGIC_NUMBER, canary := CANARY_VALUE })).writeWord
        (B + sz - sizeofWord) CANARY_VALUE,
    free_lists := al.free_lists.set (MEM_getSizeClass al sz).toNat none }

/-- Symbolic run of MEM_splitBlock in the whole-block case. -/
theorem C7_run_whole (al : MemAllocator) (B r sz T : Nat)
    (hT : T = ALIGN r + sizeofBlockHeader + sizeofWord)
    (hsz : (al.mem.readHdr B).size = sz)
    (hsznz : sz ≠ 0)
    (hval : MEM_validateBlock al (some B) = EXIT_SUCCESS)
    (hflp : (al.mem.readHdr B).fl_prev = none)
    (hfln : (al.mem.readHdr B).fl_next = none)
    (hsmall : sz < T + MIN_BLOCK_SIZE) :
    MEM_splitBlock al B r = (EXIT_SUCCESS, c7Whole al B sz) := by
  unfold MEM_splitBlock
  rw [hval, if_neg (by simp : Not (EXIT_SUCCESS ≠ EXIT_SUCCESS))]
  try dsimp only
  rw [← hT]
  rw [MEM_removeFreeBlock_solo al B sz hsz hsznz hflp hfln]
  try dsimp only
  rw [if_neg (by simp : Not (EXIT_SUCCESS ≠ EXIT_SUCCESS))]
  try dsimp only
  have horig : ((al.mem.updHdr B
      (fun h => { h with fl_next := none, fl_prev := none })).readHdr B).size = sz := by
    rw [Memory.readHdr_updHdr_same]
    exact hsz
  rw [horig]
  rw [if_pos hsmall]
  rfl

/-- The allocator state after MEM_splitBlock carves a remainder from the
block `B` of size `sz` (sole member of its bin, neighbour-order
successor `bnext`): `B` is truncated to size `T` and allocated, a new
free block of size `sz - T` is written at `B + T`, linked between `B`
and `bnext`, inserted at the head of its (empty) bin, with canaries
reinstalled on both halves. -/
def c7Carved (al : MemAllocator) (B sz T : Nat) (bnext : Option Nat) : MemAllocator :=
  let mA := al.mem.updHdr B (fun h => { h with fl_next := none, fl_prev := none })
  let mB := mA.updHdr B
    (fun h => { h with size := T, free := 0, magic := MAGIC_NUMBER, canary := CANARY_VALUE })
  let mC := mB.writeWord (B + T - sizeofWord) CANARY_VALUE
  let mD := mC.updHdr (B + T)
    (fun h => { h with magic := MAGIC_NUMBER, size := sz - T, free := 1
                     , marked := 0, file := "", line := 0, var_name := ""
                     , prev := some B, next := bnext })
  let mE :=
    match bnext with
    | some nx => mD.updHdr nx (fun h => { h with prev := some (B + T) })
    | none => mD
  let mF := mE.updHdr B (fun h => { h with next := some (B + T) })
  let mG := mF.updHdr (B + T) (fun h => { h with canary := CANARY_VALUE })
  let mH := mG.writeWord (B + T + (sz - T) - sizeofWord) CANARY_VALUE
  let mI := mH.updHdr (B + T) (fun h => { h with fl_next := none, fl_prev := none })
  let mJ := mI.updHdr (B + T) (fun h => { h with fl_next := none, fl_prev := none })
  { al with
    mem := mJ,
    free_lists := (al.free_lists.set (MEM_getSizeClass al sz).toNat none).set
      (MEM_getSizeClass al (sz - T)).toNat (some (B + T)) }

/-- Symbolic run of MEM_splitBlock in the carve case. -/
theorem C7_run_carve (al : MemAllocator) (B r sz T : Nat) (bnext : Option Nat)
    (hT : T = ALIGN r + sizeofBlockHeader + sizeofWord)
    (hsz : (al.mem.readHdr B).size = sz)
    (hsznz : sz ≠ 0)
    (hval : MEM_validateBlock al (some B) = EXIT_SUCCESS)
    (hflp : (al.mem.readHdr B).fl_prev = none)
    (hfln : (al.mem.readHdr B).fl_next = none)
    (hnx : (al.mem.readHdr B).next = bnext)
    (hbig : T + MIN_BLOCK_SIZE ≤ sz)
    (hBne : B ≠ B + T)
    (hnxB' : ∀ nx, bnext = some nx → nx ≠ B + T)
    (hbinB' : al.free_lists.getD (MEM_getSizeClass al (sz - T)).toNat none = none) :
    MEM_splitBlock al B r = (EXIT_SUCCESS, c7Carved al B sz T bnext) := by
  have hsznz' : sz - T ≠ 0 := by
    have hmb : (0 : Nat) < MIN_BLOCK_SIZE := by decide
    omega
  unfold MEM_splitBlock
  rw [hval, if_neg (by simp : Not (EXIT_SUCCESS ≠ EXIT_SUCCESS))]
  try dsimp only
  rw [← hT]
  rw [MEM_removeFreeBlock_solo al B sz hsz hsznz hflp hfln]
  try dsimp only
  rw [if_neg (by simp : Not (EXIT_SUCCESS ≠ EXIT_SUCCESS))]
  try dsimp only
  have horig : ((al.mem.updHdr B
      (fun h => { h with fl_next := none, fl_prev := none })).readHdr B).size = sz := by
    rw [Memory.readHdr_updHdr_same]
    exact hsz
  rw [horig]
  rw [if_neg (not_lt.mpr hbig)]
  have hbn : ((((al.mem.updHdr B (fun h => { h with fl_next := none, fl_prev := none })).updHdr B
      (fun h => { h with size := T, free := 0, magic := MAGIC_NUMBER
                       , canary := CANARY_VALUE })).writeWord
      (B + T - sizeofWord) CANARY_VALUE).readHdr B).next = bnext := by
    rw [Memory.readHdr_writeWord, Memory.readHdr_updHdr_same]
    dsimp only
    rw [Memory.readHdr_updHdr_same]
    exact hnx
  rw [hbn]
  rcases hc : bnext with _ | nx
  · try dsimp only
    refine Eq.trans (MEM_insertFreeBlock_empty_bin _ (B + T) (sz - T) ?_ hsznz' ?_) ?_
    · try dsimp only
      rw [Memory.readHdr_updHdr_same]
      dsimp only
      rw [Memory.readHdr_writeWord, Memory.readHdr_updHdr_same]
      dsimp only
      rw [Memory.readHdr_updHdr_ne _ _ _ _ hBne, Memory.readHdr_updHdr_same]
    · exact getD_set_none _ _ _ hbinB'
    · rfl
  · have hnxT : nx ≠ B + T := hnxB' nx hc
    try dsimp only
    refine Eq.trans (MEM_insertFreeBlock_empty_bin _ (B + T) (sz - T) ?_ hsznz' ?_) ?_
    · try dsimp only
      rw [Memory.readHdr_updHdr_same]
      dsimp only
      rw [Memory.readHdr_writeWord, Memory.readHdr_updHdr_same]
      dsimp only
      rw [Memory.readHdr_updHdr_ne _ _ _ _ hBne, Memory.readHdr_updHdr_ne _ _ _ _ hnxT,
        Memory.readHdr_updHdr_same]
    · exact getD_set_none _ _ _ hbinB'
    · rfl

/-- Header left at `B` by the whole-block case. -/
theorem c7Whole_readHdr_B (al : MemAllocator) (B sz : Nat) :
    (c7Whole al B sz).mem.readHdr B =
      { al.mem.readHdr B with free := 0, magic := MAGIC_NUMBER
                            , canary := CANARY_VALUE, fl_next := none, fl_prev := none } := by
  unfold c7Whole
  try dsimp only
  rw [Memory.readHdr_writeWord, Memory.readHdr_updHdr_same]
  try dsimp only
  rw [Memory.readHdr_updHdr_same]

/-- Tail canary written by the whole-block case. -/
theorem c7Whole_readWord (al : MemAllocator) (B sz : Nat) :
    (c7Whole al B sz).mem.readWord (B + sz - sizeofWord) = CANARY_VALUE := by
  unfold c7Whole
  try dsimp only
  rw [Memory.readWord_writeWord_same]

/-- The whole-block case touches no other header. -/
theorem c7Whole_readHdr_ne (al : MemAllocator) (B sz a : Nat) (ha : a ≠ B) :
    (c7Whole al B sz).mem.readHdr a = al.mem.readHdr a := by
  unfold c7Whole
  try dsimp only
  rw [Memory.readHdr_writeWord, Memory.readHdr_updHdr_ne _ _ _ _ (Ne.symm ha),
    Memory.readHdr_updHdr_ne _ _ _ _ (Ne.symm ha)]

/-- Header left at `B` by the carve case. -/
theorem c7Carved_readHdr_B (al : MemAllocator) (B sz T : Nat) (bnext : Option Nat)
    (hBne : B ≠ B + T)
    (hnxB : ∀ nx, bnext = some nx → nx ≠ B) :
    (c7Carved al B sz T bnext).mem.readHdr B =
      { al.mem.readHdr B with size := T, free := 0, magic := MAGIC_NUMBER
                            , canary := CANARY_VALUE, next := some (B + T)
                            , fl_next := none, fl_prev := none } := by
  unfold c7Carved
  try dsimp only
  rw [Memory.readHdr_updHdr_ne _ _ _ _ (Ne.symm hBne),
    Memory.readHdr_updHdr_ne _ _ _ _ (Ne.symm hBne),
    Memory.readHdr_writeWord,
    Memory.readHdr_updHdr_ne _ _ _ _ (Ne.symm hBne),
    Memory.readHdr_updHdr_same]
  rcases hc : bnext with _ | nx
  · try dsimp only
    rw [Memory.readHdr_updHdr_ne _ _ _ _ (Ne.symm hBne), Memory.readHdr_writeWord,
      Memory.readHdr_updHdr_same]
    dsimp only
    rw [Memory.readHdr_updHdr_same]
  · have hnB : nx ≠ B := hnxB nx hc
    try dsimp only
    rw [Memory.readHdr_updHdr_ne _ _ _ _ hnB,
      Memory.readHdr_updHdr_ne _ _ _ _ (Ne.symm hBne), Memory.readHdr_writeWord,
      Memory.readHdr_updHdr_same]
    dsimp only
    rw [Memory.readHdr_updHdr_same]

/-- Header of the new free block the carve case writes at `B + T`. -/
theorem c7Carved_readHdr_B2 (al : MemAllocator) (B sz T : Nat) (bnext : Option Nat)
    (hBne : B ≠ B + T)
    (hnxT : ∀ nx, bnext = some nx → nx ≠ B + T) :
    (c7Carved al B sz T bnext).mem.readHdr (B + T) =
      { magic := MAGIC_NUMBER, size := sz - T, free := 1, marked := 0
      , var_name := "", file := "", line := 0, canary := CANARY_VALUE
      , next := bnext, prev := some B, fl_next := none, fl_prev := none } := by
  unfold c7Carved
  try dsimp only
  rw [Memory.readHdr_updHdr_same]
  try dsimp only
  rw [Memory.readHdr_updHdr_same]
  try dsimp only
  rw [Memory.readHdr_writeWord, Memory.readHdr_updHdr_same]
  try dsimp only
  rw [Memory.readHdr_updHdr_ne _ _ _ _ hBne]
  rcases hc : bnext with _ | nx
  · try dsimp only
    rw [Memory.readHdr_updHdr_same]
  · have hnT : nx ≠ B + T := hnxT nx hc
    try dsimp only
    rw [Memory.readHdr_updHdr_ne _ _ _ _ hnT, Memory.readHdr_updHdr_same]

/-- Tail canary of the allocated half written by the carve case. -/
theorem c7Carved_readWord_B (al : MemAllocator) (B sz T : Nat) (bnext : Option Nat)
    (hwne : B + T + (sz - T) - sizeofWord ≠ B + T - sizeofWord) :
    (c7Carved al B sz T bnext).mem.readWord (B + T - sizeofWord) = CANARY_VALUE := by
  unfold c7Carved
  try dsimp only
  rw [Memory.readWord_updHdr, Memory.readWord_updHdr,
    Memory.readWord_writeWord_ne _ _ _ _ hwne,
    Memory.readWord_updHdr, Memory.readWord_updHdr]
  rcases hc : bnext with _ | nx
  · try dsimp only
    rw [Memory.readWord_updHdr, Memory.readWord_writeWord_same]
  · try dsimp only
    rw [Memory.readWord_updHdr, Memory.readWord_updHdr, Memory.readWord_writeWord_same]

/-- Tail canary of the carved free half. -/
theorem c7Carved_readWord_B2 (al : MemAllocator) (B sz T : Nat) (bnext : Option Nat) :
    (c7Carved al B sz T bnext).mem.readWord (B + T + (sz - T) - sizeofWord)
      = CANARY_VALUE := by
  unfold c7Carved
  try dsimp only
  rw [Memory.readWord_updHdr, Memory.readWord_updHdr, Memory.readWord_writeWord_same]

/-- The carve case updates the neighbour-order successor to point back
at the carved block. -/
theorem c7Carved_readHdr_nx (al : MemAllocator) (B sz T nx : Nat)
    (hnB : nx ≠ B) (hnT : nx ≠ B + T) :
    (c7Carved al B sz T (some nx)).mem.readHdr nx =
      { al.mem.readHdr nx with prev := some (B + T) } := by
  unfold c7Carved
  try dsimp only
  rw [Memory.readHdr_updHdr_ne _ _ _ _ (Ne.symm hnT),
    Memory.readHdr_updHdr_ne _ _ _ _ (Ne.symm hnT),
    Memory.readHdr_writeWord,
    Memory.readHdr_updHdr_ne _ _ _ _ (Ne.symm hnT),
    Memory.readHdr_updHdr_ne _ _ _ _ (Ne.symm hnB),
    Memory.readHdr_updHdr_same]
  try dsimp only
  rw [Memory.readHdr_updHdr_ne _ _ _ _ (Ne.symm hnT),
    Memory.readHdr_writeWord,
    Memory.readHdr_updHdr_ne _ _ _ _ (Ne.symm hnB),
    Memory.readHdr_updHdr_ne _ _ _ _ (Ne.symm hnB)]

/-- C7: for every valid free block `B` of size `sz` (sole member of its
bin, neighbour-order successor `bnext`) selected for an allocation of
requested payload `r`, with `T = ALIGN(r) + sizeof(header) + word` and
`MIN_BLOCK_SIZE = sizeof(header) + alignment`: if `sz < T +
MIN_BLOCK_SIZE` the whole block is allocated — removed from its bin,
free flag cleared, magic and both canaries reinstalled, its size (hence
no remainder) and every other header unchanged; otherwise `B` is
truncated to size `T` (free flag cleared, canaries reinstalled) and a
new free block of size `sz - T` is carved at `B + T`, linked into the
neighbour-order list between `B` and `bnext` (with `bnext.prev`
repointed), inserted at the head of its bin, with canaries on both
halves. -/
theorem C7_split (al : MemAllocator) (B r sz T : Nat) (bnext : Option Nat)
    (hT : T = ALIGN r + sizeofBlockHeader + sizeofWord)
    (hsz : (al.mem.readHdr B).size = sz)
    (hsznz : sz ≠ 0)
    (hval : MEM_validateBlock al (some B) = EXIT_SUCCESS)
    (hflp : (al.mem.readHdr B).fl_prev = none)
    (hfln : (al.mem.readHdr B).fl_next = none)
    (hnx : (al.mem.readHdr B).next = bnext)
    (hbinlen : (MEM_getSizeClass al sz).toNat < al.free_lists.length)
    (hnxB : ∀ nx, bnext = some nx → nx ≠ B)
    (hnxT : ∀ nx, bnext = some nx → nx ≠ B + T)
    (hbinB' : al.free_lists.getD (MEM_getSizeClass al (sz - T)).toNat none = none)
    (hbinlen2 : (MEM_getSizeClass al (sz - T)).toNat < al.free_lists.length) :
    (sz < T + MIN_BLOCK_SIZE →
      (MEM_splitBlock al B r).1 = EXIT_SUCCESS ∧
      ((MEM_splitBlock al B r).2.mem.readHdr B).free = 0 ∧
      ((MEM_splitBlock al B r).2.mem.readHdr B).size = sz ∧
      ((MEM_splitBlock al B r).2.mem.readHdr B).magic = MAGIC_NUMBER ∧
      ((MEM_splitBlock al B r).2.mem.readHdr B).canary = CANARY_VALUE ∧
      (MEM_splitBlock al B r).2.mem.readWord (B + sz - sizeofWord) = CANARY_VALUE ∧
      (MEM_splitBlock al B r).2.free_lists.getD (MEM_getSizeClass al sz).toNat none
          = none ∧
      (∀ a, a ≠ B → (MEM_splitBlock al B r).2.mem.readHdr a = al.mem.readHdr a)) ∧
    (T + MIN_BLOCK_SIZE ≤ sz →
      (MEM_splitBlock al B r).1 = EXIT_SUCCESS ∧
      ((MEM_splitBlock al B r).2.mem.readHdr B).size = T ∧
      ((MEM_splitBlock al B r).2.mem.readHdr B).free = 0 ∧
      ((MEM_splitBlock al B r).2.mem.readHdr B).magic = MAGIC_NUMBER ∧
      ((MEM_splitBlock al B r).2.mem.readHdr B).canary = CANARY_VALUE ∧
      ((MEM_splitBlock al B r).2.mem.readHdr B).next = some (B + T) ∧
      (MEM_splitBlock al B r).2.mem.readWord (B + T - sizeofWord) = CANARY_VALUE ∧
      ((MEM_splitBlock al B r).2.mem.readHdr (B + T)).size = sz - T ∧
      ((MEM_splitBlock al B r).2.mem.readHdr (B + T)).free = 1 ∧
      ((MEM_splitBlock al B r).2.mem.readHdr (B + T)).magic = MAGIC_NUMBER ∧
      ((MEM_splitBlock al B r).2.mem.readHdr (B + T)).canary = CANARY_VALUE ∧
      ((MEM_splitBlock al B r).2.mem.readHdr (B + T)).prev = some B ∧
      ((MEM_splitBlock al B r).2.mem.readHdr (B + T)).next = bnext ∧
      (MEM_splitBlock al B r).2.mem.readWord (B + T + (sz - T) - sizeofWord)
          = CANARY_VALUE ∧
      (MEM_splitBlock al B r).2.free_lists.getD
          (MEM_getSizeClass al (sz - T)).toNat none = some (B + T) ∧
      (∀ nx, bnext = some nx →
        ((MEM_splitBlock al B r).2.mem.readHdr nx).prev = some (B + T))) := by
  have h88 : sizeofBlockHeader = 88 := rfl
  have h8 : sizeofWord = 8 := rfl
  have hmb : MIN_BLOCK_SIZE = 96 := rfl
  have hBne : B ≠ B + T := by omega
  constructor
  · intro hsmall
    rw [C7_run_whole al B r sz T hT hsz hsznz hval hflp hfln hsmall]
    refine ⟨rfl, ?_, ?_, ?_, ?_, ?_, ?_, ?_⟩
    · rw [c7Whole_readHdr_B]
    · rw [c7Whole_readHdr_B]
      exact hsz
    · rw [c7Whole_readHdr_B]
    · rw [c7Whole_readHdr_B]
    · exact c7Whole_readWord al B sz
    · show (al.free_lists.set (MEM_getSizeClass al sz).toNat none).getD
        (MEM_getSizeClass al sz).toNat none = none
      exact getD_set_self _ _ _ hbinlen
    · intro a ha
      exact c7Whole_readHdr_ne al B sz a ha
  · intro hbig
    have hwne : B + T + (sz - T) - sizeofWord ≠ B + T - sizeofWord := by omega
    rw [C7_run_carve al B r sz T bnext hT hsz hsznz hval hflp hfln hnx hbig hBne hnxT hbinB']
    refine ⟨rfl, ?_, ?_, ?_, ?_, ?_, ?_, ?_, ?_, ?_, ?_, ?_, ?_, ?_, ?_, ?_⟩
    · rw [c7Carved_readHdr_B al B sz T bnext hBne hnxB]
    · rw [c7Carved_readHdr_B al B sz T bnext hBne hnxB]
    · rw [c7Carved_readHdr_B al B sz T bnext hBne hnxB]
    · rw [c7Carved_readHdr_B al B sz T bnext hBne hnxB]
    · rw [c7Carved_readHdr_B al B sz T bnext hBne hnxB]
    · exact c7Carved_readWord_B al B sz T bnext hwne
    · rw [c7Carved_readHdr_B2 al B sz T bnext hBne hnxT]
    · rw [c7Carved_readHdr_B2 al B sz T bnext hBne hnxT]
    · rw [c7Carved_readHdr_B2 al B sz T bnext hBne hnxT]
    · rw [c7Carved_readHdr_B2 al B sz T bnext hBne hnxT]
    · rw [c7Carved_readHdr_B2 al B sz T bnext hBne hnxT]
    · rw [c7Carved_readHdr_B2 al B sz T bnext hBne hnxT]
    · exact c7Carved_readWord_B2 al B sz T bnext
    · show ((al.free_lists.set (MEM_getSizeClass al sz).toNat none).set
        (MEM_getSizeClass al (sz - T)).toNat (some (B + T))).getD
        (MEM_getSizeClass al (sz - T)).toNat none = some (B + T)
      refine getD_set_self _ _ _ ?_
      rw [List.length_set]
      exact hbinlen2
    · intro nx hcx
      rw [hcx]
      rw [c7Carved_readHdr_nx al B sz T nx (hnxB nx hcx) (hnxT nx hcx)]

/-- A heap with one valid 400-byte free block at 1000104 (bin 4 head),
used to exercise the carve case. -/
def splitState : MemAllocator :=
  { initState with
    heap_end := 1000504,
    brk := 1000504,
    free_lists := initState.free_lists.set 4 (some 1000104),
    mem :=
      { hdrs := [(1000104,
          { magic := MAGIC_NUMBER, size := 400, free := 1, marked := 0
          , var_name := "", file := "", line := 0, canary := CANARY_VALUE
          , next := none, prev := none, fl_next := none, fl_prev := none })]
      , words := [(1000496, CANARY_VALUE)]
      , zeroes := [], copies := [] } }


/-- C7 witness: carving a 100-byte request out of the concrete 400-byte
free block of `splitState` (T = 200, remainder 200 at 1000304). -/
theorem C7_witness :
    (MEM_splitBlock splitState 1000104 100).1 = EXIT_SUCCESS ∧
    ((MEM_splitBlock splitState 1000104 100).2.mem.readHdr 1000104).size = 200 ∧
    ((MEM_splitBlock splitState 1000104 100).2.mem.readHdr 1000104).free = 0 ∧
    ((MEM_splitBlock splitState 1000104 100).2.mem.readHdr 1000104).magic
        = MAGIC_NUMBER ∧
    ((MEM_splitBlock splitState 1000104 100).2.mem.readHdr 1000104).canary
        = CANARY_VALUE ∧
    ((MEM_splitBlock splitState 1000104 100).2.mem.readHdr 1000104).next
        = some (1000104 + 200) ∧
    (MEM_splitBlock splitState 1000104 100).2.mem.readWord
        (1000104 + 200 - sizeofWord) = CANARY_VALUE ∧
    ((MEM_splitBlock splitState 1000104 100).2.mem.readHdr (1000104 + 200)).size
        = 400 - 200 ∧
    ((MEM_splitBlock splitState 1000104 100).2.mem.readHdr (1000104 + 200)).free = 1 ∧
    ((MEM_splitBlock splitState 1000104 100).2.mem.readHdr (1000104 + 200)).magic
        = MAGIC_NUMBER ∧
    ((MEM_splitBlock splitState 1000104 100).2.mem.readHdr (1000104 + 200)).canary
        = CANARY_VALUE ∧
    ((MEM_splitBlock splitState 1000104 100).2.mem.readHdr (1000104 + 200)).prev
        = some 1000104 ∧
    ((MEM_splitBlock splitState 1000104 100).2.mem.readHdr (1000104 + 200)).next
        = none ∧
    (MEM_splitBlock splitState 1000104 100).2.mem.readWord
        (1000104 + 200 + (400 - 200) - sizeofWord) = CANARY_VALUE ∧
    (MEM_splitBlock splitState 1000104 100).2.free_lists.getD
        (MEM_getSizeClass splitState (400 - 200)).toNat none = some (1000104 + 200) := by
  have h := C7_split splitState 1000104 100 400 200 none (by decide) (by decide)
    (by decide) (by decide) (by decide) (by decide) (by decide) (by decide)
    (fun nx hx => Option.noConfusion hx) (fun nx hx => Option.noConfusion hx)
    (by decide) (by decide)
  have hB := h.2 (by decide)
  exact ⟨hB.1, hB.2.1, hB.2.2.1, hB.2.2.2.1, hB.2.2.2.2.1, hB.2.2.2.2.2.1,
    hB.2.2.2.2.2.2.1, hB.2.2.2.2.2.2.2.1, hB.2.2.2.2.2.2.2.2.1,
    hB.2.2.2.2.2.2.2.2.2.1, hB.2.2.2.2.2.2.2.2.2.2.1,
    hB.2.2.2.2.2.2.2.2.2.2.2.1, hB.2.2.2.2.2.2.2.2.2.2.2.2.1,
    hB.2.2.2.2.2.2.2.2.2.2.2.2.2.1, hB.2.2.2.2.2.2.2.2.2.2.2.2.2.2.1⟩

/-! ## C8: MEM_findBestFit -/

/-- The free-list chain reachable from `head` by `fl_next` is exactly
`chain` (finite and acyclic by construction). -/
def flChainIsB (al : MemAllocator) : Option Nat → List Nat → Bool
  | none, [] => true
  | none, _ :: _ => false
  | some _, [] => false
  | some c, x :: xs => (c == x) && flChainIsB al (al.mem.readHdr c).fl_next xs

/-- A block is a best-fit candidate for `size`: it validates, is free,
and is large enough (the walk's condition at lines 2271-2277). -/
def isCand (al : MemAllocator) (size c : Nat) : Bool :=
  decide (MEM_validateBlock al (some c) = EXIT_SUCCESS ∧
    (al.mem.readHdr c).free ≠ 0 ∧ size ≤ (al.mem.readHdr c).size)

/-- Keep the strictly smaller candidate, the earlier one on ties. -/
def pickBest (al : MemAllocator) (best : Option Nat) (c : Nat) : Option Nat :=
  match best with
  | none => some c
  | some b => if (al.mem.readHdr c).size < (al.mem.readHdr b).size then some c else some b

/-- The smallest block of `l`, the first such block on ties. -/
def firstSmallest (al : MemAllocator) (l : List Nat) : Option Nat :=
  l.foldl (pickBest al) none

/-- Best-fit search as the specification words it: walk the classes
upward; the first class whose chain contains any candidate yields the
smallest candidate of that chain (first encountered on ties) and later
classes are not examined; otherwise the search is out of memory.  This
definition follows the specification text, to be compared with
MEM_findBestFit. -/
def bestFitSpec (al : MemAllocator) (size : Nat) : List (List Nat) → Option Nat
  | [] => none
  | chain :: rest =>
    match firstSmallest al (chain.filter (isCand al size)) with
    | some b => some b
    | none => bestFitSpec al size rest

/-- The per-class chains of the bins listed in `classes` are exactly
`chains`. -/
def chainsOkB (al : MemAllocator) : List Nat → List (List Nat) → Bool
  | [], [] => true
  | i :: is, ch :: chs =>
    flChainIsB al (al.free_lists.getD i none) ch && chainsOkB al is chs
  | _, _ => false

/-- The walk's best'-update is `pickBest`. -/
theorem pickBest_eq (al : MemAllocator) (best : Option Nat) (c : Nat) :
    (match best with
     | none => some c
     | some b =>
       if (al.mem.readHdr c).size < (al.mem.readHdr b).size then some c else best)
      = pickBest al best c := by
  cases best with
  | none => rfl
  | some b =>
    unfold pickBest
    try dsimp only
    try split <;> rfl
    try rfl

/-- The best-fit inner walk over an all-valid chain folds `pickBest`
over the candidates in chain order (so ties keep the first candidate),
and reports the last validation result — EXIT_SUCCESS on a non-empty
chain. -/
theorem flWalkBestFit_chain (al : MemAllocator) (size : Nat) :
    ∀ (chain : List Nat) (fuel : Nat) (head : Option Nat) (best : Option Nat) (ret : Int),
    flChainIsB al head chain = true →
    chain.length ≤ fuel →
    (∀ c ∈ chain, MEM_validateBlock al (some c) = EXIT_SUCCESS) →
    flWalkBestFit al size fuel head best ret
      = ((if chain.isEmpty then ret else EXIT_SUCCESS),
         (chain.filter (isCand al size)).foldl (pickBest al) best) := by
  intro chain
  induction chain with
  | nil =>
    intro fuel head best ret hch hlen hval
    cases head with
    | none => cases fuel <;> rfl
    | some c => exact absurd hch (by simp [flChainIsB])
  | cons x xs ih =>
    intro fuel head best ret hch hlen hval
    cases head with
    | none => exact absurd hch (by simp [flChainIsB])
    | some c =>
      unfold flChainIsB at hch
      rw [Bool.and_eq_true, beq_iff_eq] at hch
      obtain ⟨hcx, hrest⟩ := hch
      subst hcx
      cases fuel with
      | zero => exact absurd hlen (by simp)
      | succ f =>
        have hvx : MEM_validateBlock al (some c) = EXIT_SUCCESS := hval c (by simp)
        have hlen' : xs.length ≤ f := by
          simp only [List.length_cons] at hlen
          omega
        have hval' : ∀ a ∈ xs, MEM_validateBlock al (some a) = EXIT_SUCCESS :=
          fun a ha => hval a (List.mem_cons_of_mem _ ha)
        unfold flWalkBestFit
        try dsimp only
        rw [hvx]
        by_cases hcand : (al.mem.readHdr c).free ≠ 0 ∧ size ≤ (al.mem.readHdr c).size
        · rw [if_pos ⟨rfl, hcand⟩]
          have hpc : isCand al size c = true := by
            unfold isCand
            exact decide_eq_true ⟨hvx, hcand⟩
          rw [List.filter_cons_of_pos hpc, List.foldl_cons]
          rw [ih f _ _ EXIT_SUCCESS hrest hlen' hval']
          rw [ite_self]
          cases best <;> rfl
        · rw [if_neg (fun h => hcand h.2)]
          have hpc : ¬ isCand al size c = true := by
            unfold isCand
            simp only [decide_eq_true_eq]
            exact fun h => hcand h.2
          rw [List.filter_cons_of_neg hpc]
          rw [ih f _ best EXIT_SUCCESS hrest hlen' hval']
          rw [ite_self]
          rfl

/-- The best-fit class loop over all-valid chains: the first class whose
chain yields a candidate returns the fold's pick with EXIT_SUCCESS and
later classes are not examined; when no class yields one the loop
reports out-of-memory. -/
theorem bestFitClasses_chains (al : MemAllocator) (size fuel : Nat) :
    ∀ (classes : List Nat) (chains : List (List Nat)),
    chainsOkB al classes chains = true →
    (∀ ch ∈ chains, ch.length ≤ fuel) →
    (∀ ch ∈ chains, ∀ c ∈ ch, MEM_validateBlock al (some c) = EXIT_SUCCESS) →
    bestFitClasses al size fuel EXIT_SUCCESS classes
      = (match bestFitSpec al size chains with
         | some b => (EXIT_SUCCESS, some b)
         | none => (-ENOMEM, none)) := by
  intro classes
  induction classes with
  | nil =>
    intro chains hok hlen hval
    cases chains with
    | nil => rfl
    | cons ch chs => exact absurd hok (by simp [chainsOkB])
  | cons i is ih =>
    intro chains hok hlen hval
    cases chains with
    | nil => exact absurd hok (by simp [chainsOkB])
    | cons ch chs =>
      unfold chainsOkB at hok
      rw [Bool.and_eq_true] at hok
      obtain ⟨hch, hoks⟩ := hok
      have hlen' : ∀ c ∈ chs, List.length c ≤ fuel :=
        fun c h => hlen c (List.mem_cons_of_mem _ h)
      have hval' : ∀ c ∈ chs, ∀ a ∈ c, MEM_validateBlock al (some a) = EXIT_SUCCESS :=
        fun c h => hval c (List.mem_cons_of_mem _ h)
      have hw := flWalkBestFit_chain al size ch fuel (al.free_lists.getD i none) none
        EXIT_SUCCESS hch (hlen ch (by simp)) (hval ch (by simp))
      unfold bestFitClasses
      try dsimp only
      rw [hw]
      rw [ite_self]
      unfold bestFitSpec firstSmallest
      cases hfs : List.foldl (pickBest al) none (List.filter (isCand al size) ch) with
      | none =>
        try dsimp only
        rw [ih chs hoks hlen' hval']
      | some b =>
        try dsimp only
        try rfl

/-- C8: for every best-fit search for total size `size` over all-valid
bin chains (`chains` listing the chains of the classes from
`size_class(size)` upward), MEM_findBestFit computes exactly the
specification's best-fit: the smallest valid free candidate (validates,
free, size at least `size`) of the first class that yields any
candidate, taking the first-encountered block on ties and never
examining later classes; when no class yields a candidate the search
reports out-of-memory. -/
theorem C8_best_fit (al : MemAllocator) (size fuel : Nat) (chains : List (List Nat))
    (hsz0 : size ≠ 0)
    (hok : chainsOkB al
        (List.range' (MEM_getSizeClass al size).toNat
          (al.num_size_classes - (MEM_getSizeClass al size).toNat)) chains = true)
    (hlen : ∀ ch ∈ chains, ch.length ≤ fuel)
    (hval : ∀ ch ∈ chains, ∀ c ∈ ch, MEM_validateBlock al (some c) = EXIT_SUCCESS) :
    MEM_findBestFit al size fuel
      = (match bestFitSpec al size chains with
         | some b => (EXIT_SUCCESS, some b)
         | none => (-ENOMEM, none)) := by
  unfold MEM_findBestFit
  try dsimp only
  rw [if_neg (MEM_getSizeClass_nonneg al size hsz0)]
  exact bestFitClasses_chains al size fuel _ chains hok hlen hval

/-- A heap with one bin (class 2) holding two valid free blocks in
chain order: 1000104 of size 256, then 1000360 of size 200. -/
def bestFitState : MemAllocator :=
  { initState with
    heap_end := 1000560,
    brk := 1000560,
    free_lists := initState.free_lists.set 2 (some 1000104),
    mem :=
      { hdrs := [
          (1000104,
            { magic := MAGIC_NUMBER, size := 256, free := 1, marked := 0
            , var_name := "", file := "", line := 0, canary := CANARY_VALUE
            , next := none, prev := none, fl_next := some 1000360, fl_prev := none }),
          (1000360,
            { magic := MAGIC_NUMBER, size := 200, free := 1, marked := 0
            , var_name := "", file := "", line := 0, canary := CANARY_VALUE
            , next := none, prev := none, fl_next := none, fl_prev := some 1000104 })]
      , words := [(1000352, CANARY_VALUE), (1000552, CANARY_VALUE)]
      , zeroes := [], copies := [] } }

/-- C8 witness: searching `bestFitState` for total size 160 examines the
chain [1000104 (size 256), 1000360 (size 200)] of class 2 and returns
the smaller block 1000360, as the specification function picks. -/
theorem C8_witness :
    MEM_findBestFit bestFitState 160 4
      = (match bestFitSpec bestFitState 160
            [[1000104, 1000360], [], [], [], [], [], [], []] with
         | some b => (EXIT_SUCCESS, some b)
         | none => (-ENOMEM, none)) ∧
    bestFitSpec bestFitState 160 [[1000104, 1000360], [], [], [], [], [], [], []]
      = some 1000360 :=
  ⟨C8_best_fit bestFitState 160 4 [[1000104, 1000360], [], [], [], [], [], [], []]
      (by decide) (by decide) (by decide) (by decide),
   by decide⟩

end Libmemalloc
